import Mathlib

/-!
Verification of the ClawGuardian detection and policy-decision engine.

This file shallowly embeds the core of the repository — the pattern
catalog and regex scanning (`src/patterns`), the matcher and allowlist
resolution (`src/utils/matcher.ts`), the redactor (`src/utils/redact.ts`),
the PII validators (`src/utils/validators.ts`, shipped in `dist`), the
destructive-command classifier (`src/destructive/detector.ts`), the
configuration action resolution (`src/config.ts`) and the
`before_tool_call` hook (`src/dist/hooks/before-tool-call.js`) — and
proves or refutes the stated properties of that code.

Text is modelled as `List Char`; JavaScript `RegExp` values are modelled
by a small abstract-syntax-tree regex interpreter with JS backtracking
semantics (greedy/lazy quantifiers, word boundaries, capture groups,
negative lookahead, backreferences), and each regex literal of the source
is transcribed into that AST next to a comment quoting the original.
-/

namespace ClawGuardian

/-- Program text: a JavaScript string as a list of characters. -/
abbrev Str := List Char

/-- ASCII lowercasing, as JS `toLowerCase` acts on the ASCII range
(the only range exercised by the embedded code). -/
def lowerChar (c : Char) : Char :=
  if 'A' ≤ c ∧ c ≤ 'Z' then Char.ofNat (c.toNat + 32) else c

/-- `s.toLowerCase()` on ASCII text. -/
def lowerStr (s : Str) : Str := s.map lowerChar

/-- JS `\w` (word character): `[A-Za-z0-9_]`. -/
def isWordChar (c : Char) : Bool :=
  ('a' ≤ c ∧ c ≤ 'z') || ('A' ≤ c ∧ c ≤ 'Z') || ('0' ≤ c ∧ c ≤ '9') || c = '_'

/-- JS `\s` (whitespace): ASCII whitespace plus the common Unicode
spaces used by JS regexes (NBSP, line/paragraph separator, BOM). -/
def isJsSpace (c : Char) : Bool :=
  c = ' ' || c = '\t' || c = '\n' || c = '\r' ||
  c = Char.ofNat 11 || c = Char.ofNat 12 ||
  c = Char.ofNat 0xa0 || c = Char.ofNat 0x2028 || c = Char.ofNat 0x2029 ||
  c = Char.ofNat 0xfeff

/-- ASCII decimal digit, JS `\d`. -/
def isDigitChar (c : Char) : Bool := '0' ≤ c ∧ c ≤ '9'

/-- `text.slice(a, b)` of JS on character lists. -/
def sliceJS (s : Str) (a b : Nat) : Str := (s.drop a).take (b - a)

/-- Whether `needle` occurs as a contiguous substring (JS `includes`). -/
def occursIn (needle hay : Str) : Bool :=
  (List.range (hay.length + 1)).any (fun i => sliceJS hay i (i + needle.length) = needle)

/-- JS `String.prototype.startsWith`. -/
def startsWithJS (s pre : Str) : Bool := s.take pre.length = pre

/-- JS `String.prototype.endsWith`. -/
def endsWithJS (s suf : Str) : Bool := s.drop (s.length - suf.length) = suf ∧ suf.length ≤ s.length

/-- Replace the first occurrence of `needle` (a plain string, JS
`String.prototype.replace` with a string pattern) by `repl`. -/
def replaceFirst (hay needle repl : Str) : Str :=
  match (List.range (hay.length + 1)).find? (fun i => sliceJS hay i (i + needle.length) = needle) with
  | some i => hay.take i ++ repl ++ hay.drop (i + needle.length)
  | none => hay

/-! ## A JS-regex interpreter

`RE` is the abstract syntax of the regex subset used by the repository.
Matching follows the ECMAScript backtracking order: alternatives are
tried left to right, `star` is greedy and `starL` lazy, a quantifier
iteration that matches the empty string does not iterate again, and the
overall match is the leftmost one. -/

inductive RE : Type
  /-- matches the empty string -/
  | eps : RE
  /-- a single character satisfying the predicate (literal or class) -/
  | cls (p : Char → Bool) : RE
  /-- concatenation -/
  | seq (a b : RE) : RE
  /-- alternation, left preferred -/
  | alt (a b : RE) : RE
  /-- greedy Kleene star -/
  | star (a : RE) : RE
  /-- lazy Kleene star (`*?`) -/
  | starL (a : RE) : RE
  /-- numbered capture group -/
  | group (idx : Nat) (a : RE) : RE
  /-- word boundary `\b` -/
  | wordB : RE
  /-- begin of input `^` (no multiline flag anywhere in the sources) -/
  | bol : RE
  /-- end of input `$` -/
  | eol : RE
  /-- negative lookahead `(?!a)` -/
  | nla (a : RE) : RE
  /-- backreference `\idx`; `ci` = case-insensitive comparison -/
  | backref (idx : Nat) (ci : Bool) : RE

/-- Capture environment: group index ↦ (start, end), most recent first. -/
abbrev Caps := List (Nat × Nat × Nat)

/-- Look up the most recent capture of group `i`. -/
def capLookup (caps : Caps) (i : Nat) : Option (Nat × Nat) :=
  match caps.find? (fun e => e.1 = i) with
  | some (_, s, e) => some (s, e)
  | none => none

/-- Is there a word boundary of the haystack `t` at position `pos`? -/
def boundaryAt (t : Str) (pos : Nat) : Bool :=
  let before := match pos with
    | 0 => false
    | p + 1 => match t.get? p with | some c => isWordChar c | none => false
  let after := match t.get? pos with | some c => isWordChar c | none => false
  before ≠ after

/-- Case-possibly-insensitive character list comparison (backreferences). -/
def eqCI (ci : Bool) (a b : Str) : Bool :=
  if ci then lowerStr a = lowerStr b else a = b

/-- One structural layer of the backtracking matcher, in
continuation-passing style.  `runStep deeper re t pos caps k` attempts
to match `re` in haystack `t` at `pos`; every way the match can succeed
calls `k` with the end position and captures, in the ECMAScript
preference order, and the first success wins.  Quantifier re-iteration
is delegated to `deeper` (one fuel level down); an iteration that
matched the empty string does not iterate again. -/
def runStep (deeper : RE → Str → Nat → Caps → (Nat → Caps → Option (Nat × Caps)) → Option (Nat × Caps)) :
    RE → Str → Nat → Caps → (Nat → Caps → Option (Nat × Caps)) → Option (Nat × Caps)
  | .eps, _, pos, caps, k => k pos caps
  | .cls p, t, pos, caps, k =>
      (match t.get? pos with
       | some c => if p c then k (pos + 1) caps else none
       | none => none)
  | .seq a b, t, pos, caps, k =>
      runStep deeper a t pos caps (fun p c => runStep deeper b t p c k)
  | .alt a b, t, pos, caps, k =>
      (match runStep deeper a t pos caps k with
       | some r => some r
       | none => runStep deeper b t pos caps k)
  | .star a, t, pos, caps, k =>
      (match runStep deeper a t pos caps
          (fun p c => if p = pos then none else deeper (.star a) t p c k) with
       | some r => some r
       | none => k pos caps)
  | .starL a, t, pos, caps, k =>
      (match k pos caps with
       | some r => some r
       | none =>
           runStep deeper a t pos caps
             (fun p c => if p = pos then none else deeper (.starL a) t p c k))
  | .group i a, t, pos, caps, k =>
      runStep deeper a t pos caps (fun p c => k p ((i, pos, p) :: c))
  | .wordB, t, pos, caps, k => if boundaryAt t pos then k pos caps else none
  | .bol, _, pos, caps, k => if pos = 0 then k pos caps else none
  | .eol, t, pos, caps, k => if pos = t.length then k pos caps else none
  | .nla a, t, pos, caps, k =>
      (match runStep deeper a t pos caps (fun p c => some (p, c)) with
       | none => k pos caps
       | some _ => none)
  | .backref i ci, t, pos, caps, k =>
      (match capLookup caps i with
       | none => k pos caps
       | some (s, e) =>
           if eqCI ci (sliceJS t s e) (sliceJS t pos (pos + (e - s)))
               ∧ pos + (e - s) ≤ t.length
           then k (pos + (e - s)) caps else none)

/-- The backtracking matcher: `fuel` bounds the nesting of quantifier
iterations.  Since every permitted iteration consumes at least one
character, `t.length + 1` levels always suffice. -/
def run : Nat → RE → Str → Nat → Caps → (Nat → Caps → Option (Nat × Caps)) → Option (Nat × Caps)
  | 0 => runStep (fun _ _ _ _ _ => none)
  | fuel + 1 => runStep (run fuel)

/-- Try to match `re` at exactly position `s` of `t`; returns the end
position and captures of the preferred match. -/
def matchAt (re : RE) (t : Str) (s : Nat) : Option (Nat × Caps) :=
  run (t.length + 1) re t s [] (fun p c => some (p, c))

/-- `regex.exec` semantics: the leftmost match at or after `start`.
Returns `(matchStart, matchEnd, captures)`. -/
def execFrom (re : RE) (t : Str) (start : Nat) : Option (Nat × Nat × Caps) :=
  (List.range (t.length + 1 - start)).firstM (fun d =>
    (matchAt re t (start + d)).map (fun (e, c) => (start + d, e, c)))

/-- All successive non-overlapping matches from position 0, as produced
by a `g`-flagged scan.  An empty match advances the scan position by one
(which keeps the model total; the source's `exec` loop would not
terminate on a nullable pattern, and no shipped pattern is nullable). -/
def allMatchesAux (re : RE) (t : Str) : Nat → Nat → List (Nat × Nat × Caps)
  | 0, _ => []
  | fuel + 1, pos =>
      match execFrom re t pos with
      | none => []
      | some (s, e, c) =>
          (s, e, c) :: allMatchesAux re t fuel (if e = s then e + 1 else e)

/-- All matches of a global regex over `t`. -/
def allMatches (re : RE) (t : Str) : List (Nat × Nat × Caps) :=
  allMatchesAux re t (t.length + 2) 0

/-- `regex.test(t)`. -/
def testRE (re : RE) (t : Str) : Bool := (execFrom re t 0).isSome

/-- Number of capture groups syntactically present in a pattern. -/
def RE.maxGroup : RE → Nat
  | .eps | .cls _ | .wordB | .bol | .eol | .backref _ _ => 0
  | .seq a b | .alt a b => max a.maxGroup b.maxGroup
  | .star a | .starL a | .nla a => a.maxGroup
  | .group i a => max i a.maxGroup

/-- The capture-group strings a JS replace callback receives
(`undefined` groups become `none`). -/
def groupStrs (re : RE) (t : Str) (caps : Caps) : List (Option Str) :=
  (List.range re.maxGroup).map (fun i =>
    (capLookup caps (i + 1)).map (fun (s, e) => sliceJS t s e))

/-- `t.replace(re, cb)` with a `g` flag: every match span replaced by
`cb matchText groups`, scanning the original string. -/
def globalReplace (re : RE) (t : Str) (cb : Str → List (Option Str) → Str) : Str :=
  let ms := allMatches re t
  let rec build (pos : Nat) (ms : List (Nat × Nat × Caps)) : Str :=
    match ms with
    | [] => t.drop pos
    | (s, e, c) :: rest =>
        sliceJS t pos s ++ cb (sliceJS t s e) (groupStrs re t c) ++ build e rest
  build 0 ms

/-! ### Combinators used to transcribe the source's regex literals -/

/-- A literal character. -/
def ch (c : Char) : RE := .cls (fun x => x = c)

/-- A literal character, case-insensitively. -/
def chCI (c : Char) : RE := .cls (fun x => lowerChar x = lowerChar c)

/-- Concatenation of a list of regexes. -/
def cat (rs : List RE) : RE := rs.foldr .seq .eps

/-- A literal string. -/
def lit (s : Str) : RE := cat (s.map ch)

/-- A literal string, case-insensitively. -/
def litCI (s : Str) : RE := cat (s.map chCI)

/-- Alternation over a non-empty list, left preferred. -/
def alts : List RE → RE
  | [] => .cls (fun _ => false)
  | [r] => r
  | r :: rs => .alt r (alts rs)

/-- `a?` (greedy). -/
def opt (a : RE) : RE := .alt a .eps

/-- `a{n}`. -/
def repN (n : Nat) (a : RE) : RE := cat (List.replicate n a)

/-- `a{n,}` (greedy). -/
def repGe (n : Nat) (a : RE) : RE := .seq (repN n a) (.star a)

/-- `a{n,m}` (greedy). -/
def repRange (n m : Nat) (a : RE) : RE := .seq (repN n a) (repN (m - n) (opt a))

/-- `a+` (greedy). -/
def plus (a : RE) : RE := repGe 1 a

/-- `a+?` (lazy). -/
def plusL (a : RE) : RE := .seq a (.starL a)

/-- Character class from an explicit list. -/
def oneOf (cs : Str) : RE := .cls (fun x => cs.contains x)

/-- Character range. -/
def rng (a b : Char) : Char → Bool := fun x => a ≤ x ∧ x ≤ b

end ClawGuardian

namespace ClawGuardian

/-! ## Severities, actions and categories (`src/config.ts`) -/

/-- `Severity` of `src/config.ts`. -/
inductive Severity : Type
  | critical | high | medium | low
  deriving DecidableEq, Repr

/-- `SeverityAction` of `src/config.ts`. -/
inductive SeverityAction : Type
  | block | redact | confirm | agentConfirm | warn | log
  deriving DecidableEq, Repr

/-- The `category` tag of a `SecretMatch` (`"secrets" | "pii" | "custom"`). -/
inductive SecretCategory : Type
  | secrets | pii | custom
  deriving DecidableEq, Repr

/-! ## Validators (`src/utils/validators.ts`, shipped as `dist/utils/validators.js`) -/

/-- `parseInt` on a digit string. -/
def digitsToNat (ds : Str) : Nat := ds.foldl (fun n c => n * 10 + (c.toNat - 48)) 0

/-- The Luhn accumulation loop of `isValidCreditCard`, written over the
reversed digit list with the code's alternating `isEven` flag (`false`
at the rightmost digit, toggled at each step). -/
def luhnAux : List Nat → Bool → Nat
  | [], _ => 0
  | d :: rest, dbl =>
      (if dbl then (if 2 * d > 9 then 2 * d - 9 else 2 * d) else d) + luhnAux rest (!dbl)

/-- `isValidCreditCard` of `validators.js`: strip `[\s-]`, require 13–19
digits, reject `^(\d)\1+$` (all one digit), accept iff the Luhn sum is
divisible by 10. -/
def isValidCreditCard (candidate : Str) : Bool :=
  let digits := candidate.filter (fun c => !(isJsSpace c || c = '-'))
  if !(decide (13 ≤ digits.length) && decide (digits.length ≤ 19) && digits.all isDigitChar) then
    false
  else if (match digits with
    | c :: rest => !rest.isEmpty && rest.all (· = c)
    | [] => false) then
    false
  else
    luhnAux (digits.reverse.map (fun c => c.toNat - 48)) false % 10 = 0

/-- `isValidSSN` of `validators.js`: `^(\d{3})-(\d{2})-(\d{4})$` with
area ∉ {000, 666, 900–999}, group ≠ 00, serial ≠ 0000. -/
def isValidSSN (candidate : Str) : Bool :=
  match candidate with
  | [a1, a2, a3, h1, g1, g2, h2, s1, s2, s3, s4] =>
      if ([a1, a2, a3, g1, g2, s1, s2, s3, s4].all isDigitChar && h1 = '-' && h2 = '-') then
        let area := digitsToNat [a1, a2, a3]
        let grp := digitsToNat [g1, g2]
        let serial := digitsToNat [s1, s2, s3, s4]
        if area = 0 || area = 666 || area ≥ 900 then false
        else if grp = 0 then false
        else if serial = 0 then false
        else true
      else false
  | _ => false

/-- Split a string at every occurrence of a separator character
(JS `split("@")`-style, keeping empty segments). -/
def splitOnChar (sep : Char) (s : Str) : List Str :=
  match s with
  | [] => [[]]
  | c :: rest =>
      let parts := splitOnChar sep rest
      if c = sep then [] :: parts
      else match parts with
        | p :: ps => (c :: p) :: ps
        | [] => [[c]]

/-- The structural regex `^[^\s@]+@[^\s@]+\.[^\s@]{2,}$` of `isValidEmail`. -/
def emailShapeRE : RE :=
  let noAt : RE := .cls (fun c => !(isJsSpace c || c = '@'))
  cat [.bol, plus noAt, ch '@', plus noAt, ch '.', repGe 2 noAt, .eol]

/-- `isValidEmail` of `validators.js`: the shape regex, plus rejection of
leading/trailing/double dots in the local part and leading/trailing dot
or hyphen in the domain. -/
def isValidEmail (candidate : Str) : Bool :=
  if !(testRE emailShapeRE candidate) then false
  else
    let parts := splitOnChar '@' candidate
    let localPart := parts.headD []
    let domain := (parts.drop 1).headD []
    if startsWithJS localPart ['.'] || endsWithJS localPart ['.'] || occursIn ['.', '.'] localPart then
      false
    else if startsWithJS domain ['.'] || startsWithJS domain ['-'] ||
        endsWithJS domain ['.'] || endsWithJS domain ['-'] then
      false
    else true

/-- Modelled from the spec: `isValidPhone` delegates to the external
`libphonenumber-js` library ("delegate to a standards-compliant
phone-number validity library"), whose code is not part of this
repository.  The model accepts NANP-plausible 10/11-digit numbers; no
claim in this development depends on its exact behavior. -/
def isValidPhone (candidate : Str) : Bool :=
  let digits := candidate.filter isDigitChar
  let core := if digits.length = 11 && digits.headD '0' = '1' then digits.drop 1 else digits
  core.length = 10 &&
    (match core with
     | a :: _ :: _ :: e :: _ => ('2' ≤ a && a ≤ '9') && ('2' ≤ e && e ≤ '9')
     | _ => false)

/-! ## Pattern catalog

Each entry transcribes one regex literal of `src/patterns/*`; the
comment quotes the original. -/

/-- A catalog entry (`PatternSpec` of `api-keys.ts`): `severity` is
optional, defaulted by `buildPatterns`. -/
structure PatternSpec : Type where
  type : Str
  regex : RE
  validator : Option (Str → Bool) := none
  severity : Option Severity := none

/-- `[A-Za-z0-9]`. -/
def alnum : Char → Bool := fun c =>
  ('a' ≤ c ∧ c ≤ 'z') || ('A' ≤ c ∧ c ≤ 'Z') || isDigitChar c

/-- `[A-Za-z0-9_-]` (also `[0-9A-Za-z\-_]`). -/
def keyCh : Char → Bool := fun c => isWordChar c || c = '-'

/-- `[a-f0-9]`. -/
def hexLower : Char → Bool := fun c => ('a' ≤ c ∧ c ≤ 'f') || isDigitChar c

/-- `[a-f0-9]` under the `i` flag. -/
def hexCI : Char → Bool := fun c => hexLower (lowerChar c)

/-- A `\b(prefix‹cls›{min,})\b`-shaped key pattern, the dominant shape
of the API-key catalog. -/
def keyPat (pre : String) (p : Char → Bool) (min : Nat) : RE :=
  cat [.wordB, .group 1 (.seq (lit pre.data) (repGe min (.cls p))), .wordB]

/-- A `\b(prefix‹cls›{n})\b`-shaped key pattern of exact length. -/
def keyPatExact (pre : String) (p : Char → Bool) (n : Nat) : RE :=
  cat [.wordB, .group 1 (.seq (lit pre.data) (repN n (.cls p))), .wordB]

/-- The UUID-shaped pattern `\b([a-f0-9]{8}-[a-f0-9]{4}-[a-f0-9]{4}-[a-f0-9]{4}-[a-f0-9]{12})\b`
with the `i` flag (Postmark, Heroku). -/
def uuidRE : RE :=
  cat [.wordB, .group 1 (cat [repN 8 (.cls hexCI), ch '-', repN 4 (.cls hexCI), ch '-',
    repN 4 (.cls hexCI), ch '-', repN 4 (.cls hexCI), ch '-', repN 12 (.cls hexCI)]), .wordB]

/-- `API_KEY_PATTERNS` of `src/patterns/api-keys.ts`. -/
def API_KEY_PATTERNS : List PatternSpec := [
  -- /\b(sk-[A-Za-z0-9_-]{8,})\b/g
  ⟨"api_key_sk".data, keyPat "sk-" keyCh 8, none, some .high⟩,
  -- /\b(sk-ant-[A-Za-z0-9_-]{20,})\b/g
  ⟨"api_key_anthropic".data, keyPat "sk-ant-" keyCh 20, none, some .high⟩,
  -- /\b(ghp_[A-Za-z0-9]{20,})\b/g
  ⟨"api_key_ghp".data, keyPat "ghp_" alnum 20, none, some .high⟩,
  -- /\b(github_pat_[A-Za-z0-9_]{20,})\b/g
  ⟨"api_key_github_pat".data, keyPat "github_pat_" isWordChar 20, none, some .high⟩,
  -- /\b(gho_[A-Za-z0-9]{20,})\b/g
  ⟨"api_key_gho".data, keyPat "gho_" alnum 20, none, some .high⟩,
  -- /\b(ghu_[A-Za-z0-9]{20,})\b/g
  ⟨"api_key_ghu".data, keyPat "ghu_" alnum 20, none, some .high⟩,
  -- /\b(ghs_[A-Za-z0-9]{20,})\b/g
  ⟨"api_key_ghs".data, keyPat "ghs_" alnum 20, none, some .high⟩,
  -- /\b(xox[baprs]-[A-Za-z0-9-]{10,})\b/g
  ⟨"api_key_xox".data,
    cat [.wordB, .group 1 (cat [lit "xox".data, oneOf "baprs".data, ch '-',
      repGe 10 (.cls (fun c => alnum c || c = '-'))]), .wordB], none, some .high⟩,
  -- /\b(xapp-[A-Za-z0-9-]{10,})\b/g
  ⟨"api_key_xapp".data, keyPat "xapp-" (fun c => alnum c || c = '-') 10, none, some .high⟩,
  -- /\b(AIza[0-9A-Za-z\-_]{20,})\b/g
  ⟨"api_key_google".data, keyPat "AIza" keyCh 20, none, some .high⟩,
  -- /\b(gsk_[A-Za-z0-9_-]{10,})\b/g
  ⟨"api_key_gsk".data, keyPat "gsk_" keyCh 10, none, some .high⟩,
  -- /\b(npm_[A-Za-z0-9]{10,})\b/g
  ⟨"api_key_npm".data, keyPat "npm_" alnum 10, none, some .high⟩,
  -- /\b(\d{6,}:[A-Za-z0-9_-]{20,})\b/g
  ⟨"api_key_telegram".data,
    cat [.wordB, .group 1 (cat [repGe 6 (.cls isDigitChar), ch ':', repGe 20 (.cls keyCh)]),
      .wordB], none, some .high⟩,
  -- /\b(pplx-[A-Za-z0-9_-]{10,})\b/g
  ⟨"api_key_pplx".data, keyPat "pplx-" keyCh 10, none, some .high⟩,
  -- /\b(sk_live_[A-Za-z0-9]{20,})\b/g
  ⟨"api_key_stripe_live".data, keyPat "sk_live_" alnum 20, none, some .critical⟩,
  -- /\b(sk_test_[A-Za-z0-9]{20,})\b/g
  ⟨"api_key_stripe_test".data, keyPat "sk_test_" alnum 20, none, some .high⟩,
  -- /\b(pk_(?:live|test)_[A-Za-z0-9]{20,})\b/g
  ⟨"api_key_stripe_pk".data,
    cat [.wordB, .group 1 (cat [lit "pk_".data, alts [lit "live".data, lit "test".data],
      ch '_', repGe 20 (.cls alnum)]), .wordB], none, some .medium⟩,
  -- /\b(rk_(?:live|test)_[A-Za-z0-9]{20,})\b/g
  ⟨"api_key_stripe_rk".data,
    cat [.wordB, .group 1 (cat [lit "rk_".data, alts [lit "live".data, lit "test".data],
      ch '_', repGe 20 (.cls alnum)]), .wordB], none, some .high⟩,
  -- /\b(AC[a-f0-9]{32})\b/g
  ⟨"api_key_twilio_sid".data, keyPatExact "AC" hexLower 32, none, some .high⟩,
  -- /\b(SK[a-f0-9]{32})\b/g
  ⟨"api_key_twilio_auth".data, keyPatExact "SK" hexLower 32, none, some .high⟩,
  -- /\b(SG\.[A-Za-z0-9_-]{20,}\.[A-Za-z0-9_-]{20,})\b/g
  ⟨"api_key_sendgrid".data,
    cat [.wordB, .group 1 (cat [lit "SG.".data, repGe 20 (.cls keyCh), ch '.',
      repGe 20 (.cls keyCh)]), .wordB], none, some .high⟩,
  -- /\b(key-[A-Za-z0-9]{32})\b/g
  ⟨"api_key_mailgun".data, keyPatExact "key-" alnum 32, none, some .high⟩,
  -- /\b([a-f0-9]{8}-…-[a-f0-9]{12})\b/gi
  ⟨"api_key_postmark".data, uuidRE, none, some .medium⟩,
  -- /\b([MN][A-Za-z0-9]{23,}\.[A-Za-z0-9_-]{6}\.[A-Za-z0-9_-]{27,})\b/g
  ⟨"api_key_discord".data,
    cat [.wordB, .group 1 (cat [oneOf "MN".data, repGe 23 (.cls alnum), ch '.',
      repN 6 (.cls keyCh), ch '.', repGe 27 (.cls keyCh)]), .wordB], none, some .high⟩,
  -- /\b([a-f0-9]{8}-…-[a-f0-9]{12})\b/gi
  ⟨"api_key_heroku".data, uuidRE, none, some .medium⟩,
  -- /\b(dd[a-z]{1,2}_[A-Za-z0-9]{32,})\b/g
  ⟨"api_key_datadog".data,
    cat [.wordB, .group 1 (cat [lit "dd".data, repRange 1 2 (.cls (rng 'a' 'z')), ch '_',
      repGe 32 (.cls alnum)]), .wordB], none, some .high⟩,
  -- /\b(https:\/\/[a-f0-9]{32}@[a-z0-9.]+\.sentry\.io\/\d+)\b/gi
  ⟨"api_key_sentry".data,
    cat [.wordB, .group 1 (cat [litCI "https://".data, repN 32 (.cls hexCI), ch '@',
      plus (.cls (fun c => (rng 'a' 'z') (lowerChar c) || isDigitChar c || c = '.')),
      litCI ".sentry.io/".data, plus (.cls isDigitChar)]), .wordB], none, some .high⟩,
  -- /\b(sbp_[A-Za-z0-9]{40,})\b/g
  ⟨"api_key_supabase".data, keyPat "sbp_" alnum 40, none, some .high⟩,
  -- /\b(vercel_[A-Za-z0-9_-]{20,})\b/gi
  ⟨"api_key_vercel".data,
    cat [.wordB, .group 1 (.seq (litCI "vercel_".data) (repGe 20 (.cls keyCh))), .wordB],
    none, some .high⟩,
  -- /\b(nfp_[A-Za-z0-9]{40,})\b/g
  ⟨"api_key_netlify".data, keyPat "nfp_" alnum 40, none, some .high⟩,
  -- /\b(lin_api_[A-Za-z0-9]{40,})\b/g
  ⟨"api_key_linear".data, keyPat "lin_api_" alnum 40, none, some .high⟩,
  -- /\b(secret_[A-Za-z0-9]{40,})\b/g
  ⟨"api_key_notion".data, keyPat "secret_" alnum 40, none, some .high⟩,
  -- /\b(key[A-Za-z0-9]{14})\b/g
  ⟨"api_key_airtable".data, keyPatExact "key" alnum 14, none, some .high⟩,
  -- /\b(figd_[A-Za-z0-9_-]{40,})\b/g
  ⟨"api_key_figma".data, keyPat "figd_" keyCh 40, none, some .high⟩,
  -- /\b(pk\.[A-Za-z0-9]{60,})\b/g
  ⟨"api_key_mapbox".data, keyPat "pk." alnum 60, none, some .medium⟩,
  -- /\b(sk\.[A-Za-z0-9]{60,})\b/g
  ⟨"api_key_mapbox_sk".data, keyPat "sk." alnum 60, none, some .high⟩,
  -- /\b(AAAA[A-Za-z0-9_-]{7}:[A-Za-z0-9_-]{140,})\b/g
  ⟨"api_key_firebase".data,
    cat [.wordB, .group 1 (cat [lit "AAAA".data, repN 7 (.cls keyCh), ch ':',
      repGe 140 (.cls keyCh)]), .wordB], none, some .high⟩]

end ClawGuardian

namespace ClawGuardian

/-- ASCII uppercasing (for case-insensitive classes). -/
def upperChar (c : Char) : Char :=
  if 'a' ≤ c ∧ c ≤ 'z' then Char.ofNat (c.toNat - 32) else c

/-- `CLOUD_CREDENTIAL_PATTERNS` of `src/patterns/cloud-credentials.ts`. -/
def CLOUD_CREDENTIAL_PATTERNS : List PatternSpec :=
  let b64ish : Char → Bool := fun c => alnum c || c = '/' || c = '+' || c = '='
  let quote : RE := oneOf "\"'".data
  let nonWordStar : RE := .star (.cls (fun c => !isWordChar c))
  let sep : RE := .seq (oneOf "=:".data) (.star (.cls isJsSpace))
  [
  -- /\b(A[KBS]IA[0-9A-Z]{16})\b/g
  ⟨"aws_access_key".data,
    cat [.wordB, .group 1 (cat [ch 'A', oneOf "KBS".data, lit "IA".data,
      repN 16 (.cls (fun c => isDigitChar c || ('A' ≤ c ∧ c ≤ 'Z')))]), .wordB],
    none, some .high⟩,
  -- /(?:aws_secret|secret_access_key|AWS_SECRET)[^\w]*[=:]\s*["']?([A-Za-z0-9/+=]{40})["']?/gi
  ⟨"aws_secret_key".data,
    cat [alts [litCI "aws_secret".data, litCI "secret_access_key".data, litCI "AWS_SECRET".data],
      nonWordStar, sep, opt quote, .group 1 (repN 40 (.cls b64ish)), opt quote],
    none, some .high⟩,
  -- /\b(AIza[0-9A-Za-z\-_]{35})\b/g
  ⟨"gcp_api_key".data, keyPatExact "AIza" keyCh 35, none, some .high⟩,
  -- /(?:DefaultEndpointsProtocol|AccountKey|AccountName)=[^;]+/gi
  ⟨"azure_connection_string".data,
    cat [alts [litCI "DefaultEndpointsProtocol".data, litCI "AccountKey".data,
      litCI "AccountName".data], ch '=', plus (.cls (fun c => c ≠ ';'))],
    none, some .high⟩,
  -- /(?:AccountKey|azure_storage_key)[^\w]*[=:]\s*["']?([A-Za-z0-9/+=]{86,88})["']?/gi
  ⟨"azure_storage_key".data,
    cat [alts [litCI "AccountKey".data, litCI "azure_storage_key".data],
      nonWordStar, sep, opt quote, .group 1 (repRange 86 88 (.cls b64ish)), opt quote],
    none, some .high⟩]

/-- `TOKEN_PATTERNS` of `src/patterns/tokens.ts`. -/
def TOKEN_PATTERNS : List PatternSpec :=
  let tokCh : Char → Bool := fun c => alnum c || c = '.' || c = '_' || c = '-' || c = '+' || c = '='
  let sp : RE := .cls isJsSpace
  let quote : RE := oneOf "\"'".data
  [
  -- /\bBearer\s+([A-Za-z0-9._\-+=]{18,})\b/g
  ⟨"bearer".data,
    cat [.wordB, lit "Bearer".data, plus sp, .group 1 (repGe 18 (.cls tokCh)), .wordB],
    none, some .high⟩,
  -- /Authorization\s*[:=]\s*Bearer\s+([A-Za-z0-9._\-+=]+)/gi
  ⟨"authorization_header".data,
    cat [litCI "Authorization".data, .star sp, oneOf ":=".data, .star sp,
      litCI "Bearer".data, plus sp, .group 1 (plus (.cls tokCh))],
    none, some .high⟩,
  -- /\b[A-Z0-9_]*(?:KEY|TOKEN|SECRET|PASSWORD|PASSWD)\b\s*[=:]\s*(["']?)([^\s"'\\]+)\1/g
  ⟨"env_key_token".data,
    cat [.wordB, .star (.cls (fun c => ('A' ≤ c ∧ c ≤ 'Z') || isDigitChar c || c = '_')),
      alts [lit "KEY".data, lit "TOKEN".data, lit "SECRET".data, lit "PASSWORD".data,
        lit "PASSWD".data],
      .wordB, .star sp, oneOf "=:".data, .star sp, .group 1 (opt quote),
      .group 2 (plus (.cls (fun c => !(isJsSpace c || c = '"' || c = '\'' || c = '\\')))),
      .backref 1 false],
    none, some .high⟩,
  -- /"(?:apiKey|token|secret|password|passwd|accessToken|refreshToken)"\s*:\s*"([^"]+)"/g
  ⟨"json_token_field".data,
    cat [ch '"', alts [lit "apiKey".data, lit "token".data, lit "secret".data,
      lit "password".data, lit "passwd".data, lit "accessToken".data, lit "refreshToken".data],
      ch '"', .star sp, ch ':', .star sp, ch '"', .group 1 (plus (.cls (fun c => c ≠ '"'))),
      ch '"'],
    none, some .high⟩,
  -- /--(?:api[-_]?key|token|secret|password|passwd)\s+(["']?)([^\s"']+)\1/g
  ⟨"cli_token_flag".data,
    cat [lit "--".data, alts [cat [lit "api".data, opt (oneOf "-_".data), lit "key".data],
      lit "token".data, lit "secret".data, lit "password".data, lit "passwd".data],
      plus sp, .group 1 (opt quote),
      .group 2 (plus (.cls (fun c => !(isJsSpace c || c = '"' || c = '\'')))),
      .backref 1 false],
    none, some .high⟩]

/-- The PEM block pattern pushed by `buildPatterns`:
`/-----BEGIN [A-Z ]*PRIVATE KEY-----[\s\S]+?-----END [A-Z ]*PRIVATE KEY-----/g`. -/
def pemPrivateKeyRE : RE :=
  let upSp : RE := .star (.cls (fun c => ('A' ≤ c ∧ c ≤ 'Z') || c = ' '))
  cat [lit "-----BEGIN ".data, upSp, lit "PRIVATE KEY-----".data,
    plusL (.cls (fun _ => true)), lit "-----END ".data, upSp, lit "PRIVATE KEY-----".data]

/-- `PII_SSN` of `src/patterns/pii.ts`: `/\b\d{3}-\d{2}-\d{4}\b/g`. -/
def PII_SSN : PatternSpec :=
  ⟨"pii_ssn".data,
    cat [.wordB, repN 3 (.cls isDigitChar), ch '-', repN 2 (.cls isDigitChar), ch '-',
      repN 4 (.cls isDigitChar), .wordB],
    some isValidSSN, some .high⟩

/-- `PII_SSN_NO_DASHES`: `/(?:ssn|social\s*security)[^\d]*(\d{9})\b/gi`
with the reformat-and-revalidate validator of the source. -/
def PII_SSN_NO_DASHES : PatternSpec :=
  ⟨"pii_ssn_no_dashes".data,
    cat [alts [litCI "ssn".data,
      cat [litCI "social".data, .star (.cls isJsSpace), litCI "security".data]],
      .star (.cls (fun c => !isDigitChar c)), .group 1 (repN 9 (.cls isDigitChar)), .wordB],
    some (fun m =>
      let digits := m.filter isDigitChar
      if digits.length ≠ 9 then false
      else isValidSSN (digits.take 3 ++ ['-'] ++ (digits.drop 3).take 2 ++ ['-'] ++ digits.drop 5)),
    some .high⟩

/-- `PII_CREDIT_CARD`: `/\b(?:\d{4}[- ]?){2,4}\d{1,4}\b/g`. -/
def PII_CREDIT_CARD : PatternSpec :=
  ⟨"pii_credit_card".data,
    cat [.wordB, repRange 2 4 (.seq (repN 4 (.cls isDigitChar)) (opt (oneOf "- ".data))),
      repRange 1 4 (.cls isDigitChar), .wordB],
    some isValidCreditCard, some .high⟩

/-- `PII_PHONE`: `/\b(?:\+?1[-.\s]?)?\(?\d{3}\)?[-.\s]?\d{3}[-.\s]?\d{4}\b/g`. -/
def PII_PHONE : PatternSpec :=
  let sep : RE := opt (.cls (fun c => c = '-' || c = '.' || isJsSpace c))
  ⟨"pii_phone".data,
    cat [.wordB, opt (cat [opt (ch '+'), ch '1', sep]), opt (ch '('),
      repN 3 (.cls isDigitChar), opt (ch ')'), sep, repN 3 (.cls isDigitChar), sep,
      repN 4 (.cls isDigitChar), .wordB],
    some isValidPhone, some .medium⟩

/-- `PII_EMAIL`: `/\b[A-Za-z0-9._%+-]+@[A-Za-z0-9.-]+\.[A-Za-z]{2,}\b/g`. -/
def PII_EMAIL : PatternSpec :=
  ⟨"pii_email".data,
    cat [.wordB, plus (.cls (fun c => alnum c || c = '.' || c = '_' || c = '%' || c = '+' || c = '-')),
      ch '@', plus (.cls (fun c => alnum c || c = '.' || c = '-')), ch '.',
      repGe 2 (.cls (fun c => ('a' ≤ c ∧ c ≤ 'z') || ('A' ≤ c ∧ c ≤ 'Z'))), .wordB],
    some isValidEmail, some .medium⟩

/-- `getPiiPatterns` of `src/patterns/pii.ts`. -/
def getPiiPatterns (ssn creditCard phone email : Bool) : List PatternSpec :=
  (if ssn then [PII_SSN, PII_SSN_NO_DASHES] else []) ++
  (if creditCard then [PII_CREDIT_CARD] else []) ++
  (if phone then [PII_PHONE] else []) ++
  (if email then [PII_EMAIL] else [])

end ClawGuardian

namespace ClawGuardian

/-! ## Compiling runtime regex sources

Custom patterns (`new RegExp(pattern, "gi")` in `buildPatterns`) and
allowlist patterns (`new RegExp(p, "i")` in `isMatchAllowlisted`) are
compiled at run time from strings; `compileRegex` models that
compilation over the engine's regex subset.  Compilation failure
(`none`) models the `catch` branches of the source.  Constructs outside
the subset (lookbehind, named groups, positive lookahead, unicode
escapes) are conservatively rejected; no pattern exercised in this
development uses them. -/

/-- One parsed item of a character class: a literal or a predicate. -/
inductive ClsAtom : Type
  | chr (c : Char)
  | pred (p : Char → Bool)

/-- Read one class atom (escape sequence or plain character). -/
def readClsAtom : Str → Option (ClsAtom × Str)
  | [] => none
  | '\\' :: c :: rest =>
      let a : ClsAtom := match c with
        | 'd' => .pred isDigitChar
        | 'D' => .pred (fun x => !isDigitChar x)
        | 's' => .pred isJsSpace
        | 'S' => .pred (fun x => !isJsSpace x)
        | 'w' => .pred isWordChar
        | 'W' => .pred (fun x => !isWordChar x)
        | 'n' => .chr '\n'
        | 'r' => .chr '\r'
        | 't' => .chr '\t'
        | 'f' => .chr (Char.ofNat 12)
        | 'v' => .chr (Char.ofNat 11)
        | '0' => .chr (Char.ofNat 0)
        | other => .chr other
      some (a, rest)
  | '\\' :: [] => none
  | ']' :: _ => none
  | c :: rest => some (.chr c, rest)

/-- Parse the body of a character class up to the closing `]`,
returning the accumulated predicate (before any case folding or
negation). -/
def pClassBody (fuel : Nat) (s : Str) : Option ((Char → Bool) × Str) :=
  match fuel with
  | 0 => none
  | f + 1 =>
    match s with
    | ']' :: rest => some ((fun _ => false), rest)
    | _ =>
      match readClsAtom s with
      | none => none
      | some (a, rest) =>
          let step : (Char → Bool) → Str → Option ((Char → Bool) × Str) :=
            fun p r =>
              match pClassBody f r with
              | some (q, r2) => some ((fun x => p x || q x), r2)
              | none => none
          match a, rest with
          | .chr c1, '-' :: (']' :: _) => step (fun x => x = c1) rest
          | .chr c1, '-' :: r2 =>
              match readClsAtom r2 with
              | some (.chr c2, r3) => step (rng c1 c2) r3
              | _ => none
          | .chr c1, _ => step (fun x => x = c1) rest
          | .pred p, _ => step p rest

/-- Apply the `i` flag to a class predicate the way JS canonicalizes. -/
def clsCI (ci : Bool) (p : Char → Bool) : Char → Bool :=
  fun x => p x || (ci && (p (lowerChar x) || p (upperChar x)))

/-- JS `.`: any character except line terminators. -/
def jsDot : Char → Bool := fun c =>
  !(c = '\n' || c = '\r' || c = Char.ofNat 0x2028 || c = Char.ofNat 0x2029)

/-- Parse `{n}`, `{n,}` or `{n,m}` after the opening brace; returns
`(min, max?, rest)`. -/
def pBraceQuant (s : Str) : Option (Nat × Option Nat × Str) :=
  let d1 := s.takeWhile isDigitChar
  let r1 := s.dropWhile isDigitChar
  if d1.isEmpty then none else
  match r1 with
  | '}' :: r2 => some (digitsToNat d1, some (digitsToNat d1), r2)
  | ',' :: r2 =>
      let d2 := r2.takeWhile isDigitChar
      let r3 := r2.dropWhile isDigitChar
      (match r3 with
       | '}' :: r4 =>
           if d2.isEmpty then some (digitsToNat d1, none, r4)
           else some (digitsToNat d1, some (digitsToNat d2), r4)
       | _ => none)
  | _ => none

/-- Attach an optional quantifier (with optional lazy `?`) to a parsed
atom; a `{` that is not a well-formed quantifier stays a literal for the
next atom, as in non-unicode JS. -/
def applyQuant (a : RE) (rest : Str) : Option (RE × Str) :=
  match rest with
  | '*' :: '?' :: r => some (.starL a, r)
  | '*' :: r => some (.star a, r)
  | '+' :: '?' :: r => some (.seq a (.starL a), r)
  | '+' :: r => some (plus a, r)
  | '?' :: '?' :: r => some (.alt .eps a, r)
  | '?' :: r => some (opt a, r)
  | '{' :: r =>
      (match pBraceQuant r with
       | some (n, mm, r2) =>
           let r3 := if r2.headD ' ' = '?' then r2.drop 1 else r2
           (match mm with
            | some m => if m < n then none else some (repRange n m a, r3)
            | none => some (repGe n a, r3))
       | none => some (a, rest))
  | _ => some (a, rest)

/-- Parser nonterminals (alternation, sequence, quantified atom, atom). -/
inductive PMode : Type
  | alt | seq | atomQ | atom

/-- The recursive-descent regex parser, structurally recursive on fuel:
one step of the nonterminal given by the mode. -/
def parseRun : Nat → PMode → Bool → Str → Nat → Option (RE × Str × Nat)
  | 0, _, _, _, _ => none
  | f + 1, .alt, ci, s, g =>
      (match parseRun f .seq ci s g with
       | none => none
       | some (r1, rest, g1) =>
           match rest with
           | '|' :: rest2 =>
               (match parseRun f .alt ci rest2 g1 with
                | some (r2, rest3, g2) => some (.alt r1 r2, rest3, g2)
                | none => none)
           | _ => some (r1, rest, g1))
  | f + 1, .seq, ci, s, g =>
      (match s with
       | [] => some (.eps, [], g)
       | '|' :: _ => some (.eps, s, g)
       | ')' :: _ => some (.eps, s, g)
       | _ =>
         match parseRun f .atomQ ci s g with
         | none => none
         | some (r1, rest, g1) =>
             match parseRun f .seq ci rest g1 with
             | some (r2, rest2, g2) => some (.seq r1 r2, rest2, g2)
             | none => none)
  | f + 1, .atomQ, ci, s, g =>
      (match parseRun f .atom ci s g with
       | none => none
       | some (a, rest, g1) =>
           match applyQuant a rest with
           | some (r, rest2) => some (r, rest2, g1)
           | none => none)
  | f + 1, .atom, ci, s, g =>
      (match s with
       | '(' :: '?' :: ':' :: rest =>
           (match parseRun f .alt ci rest g with
            | some (r, ')' :: rest2, g1) => some (r, rest2, g1)
            | _ => none)
       | '(' :: '?' :: '!' :: rest =>
           (match parseRun f .alt ci rest g with
            | some (r, ')' :: rest2, g1) => some (.nla r, rest2, g1)
            | _ => none)
       | '(' :: '?' :: _ => none
       | '(' :: rest =>
           (match parseRun f .alt ci rest (g + 1) with
            | some (r, ')' :: rest2, g1) => some (.group g r, rest2, g1)
            | _ => none)
       | '[' :: '^' :: rest =>
           (match pClassBody (rest.length + 1) rest with
            | some (p, rest2) => some (.cls (fun x => !(clsCI ci p x)), rest2, g)
            | none => none)
       | '[' :: rest =>
           (match pClassBody (rest.length + 1) rest with
            | some (p, rest2) => some (.cls (clsCI ci p), rest2, g)
            | none => none)
       | '.' :: rest => some (.cls jsDot, rest, g)
       | '^' :: rest => some (.bol, rest, g)
       | '$' :: rest => some (.eol, rest, g)
       | '\\' :: c :: rest =>
           (match c with
            | 'd' => some (.cls isDigitChar, rest, g)
            | 'D' => some (.cls (fun x => !isDigitChar x), rest, g)
            | 's' => some (.cls isJsSpace, rest, g)
            | 'S' => some (.cls (fun x => !isJsSpace x), rest, g)
            | 'w' => some (.cls isWordChar, rest, g)
            | 'W' => some (.cls (fun x => !isWordChar x), rest, g)
            | 'b' => some (.wordB, rest, g)
            | 'B' => some (.nla .wordB, rest, g)
            | 'n' => some (ch '\n', rest, g)
            | 'r' => some (ch '\r', rest, g)
            | 't' => some (ch '\t', rest, g)
            | 'f' => some (ch (Char.ofNat 12), rest, g)
            | 'v' => some (ch (Char.ofNat 11), rest, g)
            | '0' => some (ch (Char.ofNat 0), rest, g)
            | other =>
                if isDigitChar other then
                  some (.backref (other.toNat - 48) ci, rest, g)
                else
                  some (if ci then chCI other else ch other, rest, g))
       | '\\' :: [] => none
       | '*' :: _ => none
       | '+' :: _ => none
       | '?' :: _ => none
       | [] => none
       | c :: rest => some (if ci then chCI c else ch c, rest, g))

/-- Parse an alternation. -/
def pAlt (ci : Bool) (fuel : Nat) (s : Str) (g : Nat) : Option (RE × Str × Nat) :=
  parseRun fuel .alt ci s g

/-- Model of `new RegExp(source, flags)`: `none` models the constructor
throwing.  `ci` is the `i` flag; the `g` flag affects only how callers
scan. -/
def compileRegex (source : Str) (ci : Bool) : Option RE :=
  match pAlt ci (4 * source.length + 8) source 1 with
  | some (re, [], _) => some re
  | _ => none

end ClawGuardian

namespace ClawGuardian

/-! ## Configuration (`src/config.ts`)

Only decision-relevant fields are embedded; the `logging` section gates
log output, never a verdict. -/

/-- Per-severity action table (`SeverityActions`). -/
structure SeverityActions : Type where
  critical : SeverityAction
  high : SeverityAction
  medium : SeverityAction
  low : SeverityAction
  deriving DecidableEq, Repr

/-- The `{action, severityActions}` shape consumed by
`getActionForSeverity`. -/
structure ActionPolicy : Type where
  action : SeverityAction
  severityActions : SeverityActions
  deriving DecidableEq, Repr

/-- `getActionForSeverity` of `src/config.ts`:
`config.severityActions[severity] ?? config.action` (the `??` fallback
is unreachable for a parsed config, whose table is total). -/
def getActionForSeverity (severity : Severity) (config : ActionPolicy) : SeverityAction :=
  match severity with
  | .critical => config.severityActions.critical
  | .high => config.severityActions.high
  | .medium => config.severityActions.medium
  | .low => config.severityActions.low

/-- `ClawGuardianSecretsConfig.categories`. -/
structure SecretsCategories : Type where
  apiKeys : Bool
  cloudCredentials : Bool
  privateKeys : Bool
  tokens : Bool
  deriving DecidableEq, Repr

/-- `ClawGuardianSecretsConfig`. -/
structure SecretsConfig extends ActionPolicy : Type where
  enabled : Bool
  categories : SecretsCategories
  deriving DecidableEq, Repr

/-- `ClawGuardianPiiConfig.categories`. -/
structure PiiCategories : Type where
  ssn : Bool
  creditCard : Bool
  email : Bool
  phone : Bool
  deriving DecidableEq, Repr

/-- `ClawGuardianPiiConfig`. -/
structure PiiConfig extends ActionPolicy : Type where
  enabled : Bool
  categories : PiiCategories
  deriving DecidableEq, Repr

/-- `ClawGuardianDestructiveConfig.categories`. -/
structure DestructiveCategories : Type where
  fileDelete : Bool
  gitDestructive : Bool
  sqlDestructive : Bool
  systemDestructive : Bool
  processKill : Bool
  networkDestructive : Bool
  privilegeEscalation : Bool
  deriving DecidableEq, Repr

/-- `ClawGuardianDestructiveConfig`. -/
structure DestructiveConfig extends ActionPolicy : Type where
  enabled : Bool
  categories : DestructiveCategories
  deriving DecidableEq, Repr

/-- `ClawGuardianCustomPattern`. -/
structure CustomPattern : Type where
  name : Str
  pattern : Str
  severity : Option Severity := none
  action : Option SeverityAction := none
  deriving DecidableEq, Repr

/-- `ClawGuardianAllowlist`; an absent optional array behaves as empty
(`?.includes` on `undefined` is falsy). -/
structure AllowlistCfg : Type where
  tools : List Str := []
  patterns : List Str := []
  sessions : List Str := []
  deriving DecidableEq, Repr

/-- `ClawGuardianConfig` (decision-relevant fields). -/
structure Config : Type where
  filterToolInputs : Bool
  filterToolOutputs : Bool
  secrets : SecretsConfig
  pii : PiiConfig
  destructive : DestructiveConfig
  customPatterns : List CustomPattern
  allowlist : AllowlistCfg
  deriving DecidableEq, Repr

/-! ## Pattern registry (`src/patterns/index.ts`) -/

/-- `PatternWithValidator` of `src/patterns/index.ts`. -/
structure PatternWithValidator : Type where
  type : Str
  regex : RE
  validator : Option (Str → Bool)
  severity : Severity
  category : SecretCategory

/-- `SecretMatch` of `src/patterns/index.ts`. -/
structure SecretMatch : Type where
  type : Str
  index : Nat
  length : Nat
  severity : Severity
  category : SecretCategory
  deriving DecidableEq, Repr

/-- The `.map((p) => ({...p, severity: p.severity ?? "high", category}))`
projection of `buildPatterns`. -/
def specsWith (category : SecretCategory) (specs : List PatternSpec) :
    List PatternWithValidator :=
  specs.map (fun p => ⟨p.type, p.regex, p.validator, p.severity.getD .high, category⟩)

/-- The custom-pattern loop of `buildPatterns`: compile with flags
`"gi"`, silently skipping patterns whose compilation throws. -/
def customPatternRules (cps : List CustomPattern) : List PatternWithValidator :=
  cps.filterMap (fun c =>
    (compileRegex c.pattern true).map (fun re =>
      ⟨"custom_".data ++ c.name, re, none, c.severity.getD .high, .custom⟩))

/-- `buildPatterns` of `src/patterns/index.ts`. -/
def buildPatterns (cfg : Config) : List PatternWithValidator :=
  (if cfg.secrets.enabled then
     (if cfg.secrets.categories.apiKeys then specsWith .secrets API_KEY_PATTERNS else []) ++
     (if cfg.secrets.categories.cloudCredentials then
        specsWith .secrets CLOUD_CREDENTIAL_PATTERNS else []) ++
     (if cfg.secrets.categories.tokens then specsWith .secrets TOKEN_PATTERNS else []) ++
     (if cfg.secrets.categories.privateKeys then
        [⟨"pem_private_key".data, pemPrivateKeyRE, none, .critical, .secrets⟩] else [])
   else []) ++
  (if cfg.pii.enabled then
     specsWith .pii (getPiiPatterns cfg.pii.categories.ssn cfg.pii.categories.creditCard
       cfg.pii.categories.phone cfg.pii.categories.email)
   else []) ++
  customPatternRules cfg.customPatterns

/-- The `while ((m = regex.exec(text)) !== null)` loop of `detectAll`
for one rule: scan successive matches from offset 0; a candidate whose
validator rejects is skipped but scanning continues from the same
`lastIndex`.  (An empty match advances by one to keep the model total.) -/
def scanRuleAux (t : Str) (p : PatternWithValidator) : Nat → Nat → List SecretMatch
  | 0, _ => []
  | fuel + 1, pos =>
      match execFrom p.regex t pos with
      | none => []
      | some (s, e, _) =>
          let matchText := sliceJS t s e
          let rest := scanRuleAux t p fuel (if e = s then e + 1 else e)
          match p.validator with
          | some v =>
              if v matchText then
                ⟨p.type, s, matchText.length, p.severity, p.category⟩ :: rest
              else rest
          | none => ⟨p.type, s, matchText.length, p.severity, p.category⟩ :: rest

/-- One rule's scan, fuel instantiated. -/
def scanRule (t : Str) (p : PatternWithValidator) : List SecretMatch :=
  scanRuleAux t p (t.length + 2) 0

/-- `detectAll` of `src/patterns/index.ts`. -/
def detectAll (text : Str) (patterns : List PatternWithValidator) : List SecretMatch :=
  patterns.flatMap (scanRule text)

/-- `detectFirst` of `src/patterns/index.ts`: first validator-passing
match in rule order. -/
def detectFirst (text : Str) (patterns : List PatternWithValidator) : Option SecretMatch :=
  (detectAll text patterns).head?

/-! ## Matcher (`src/utils/matcher.ts`) -/

/-- `SEVERITY_RANK` of `src/utils/matcher.ts`. -/
def SEVERITY_RANK : Severity → Nat
  | .critical => 4
  | .high => 3
  | .medium => 2
  | .low => 1

/-- `isAllowlisted`: tool name in the tool set OR session key in the
session set. -/
def isAllowlisted (allowlist : AllowlistCfg) (toolName : Str) (sessionKey : Option Str) :
    Bool :=
  allowlist.tools.contains toolName ||
    (match sessionKey with
     | some k => allowlist.sessions.contains k
     | none => false)

/-- `isMatchAllowlisted`: any allowlist pattern (compiled with flag
`"i"`) tests true on the matched text; invalid patterns are skipped. -/
def isMatchAllowlisted (matchedText : Str) (allowlistPatterns : List Str) : Bool :=
  if allowlistPatterns.isEmpty then false
  else allowlistPatterns.any (fun p =>
    match compileRegex p true with
    | some re => testRE re matchedText
    | none => false)

/-- `getConfigForCategory`: custom patterns use the secrets config as
fallback. -/
def getConfigForCategory (cfg : Config) : SecretCategory → ActionPolicy
  | .secrets => cfg.secrets.toActionPolicy
  | .pii => cfg.pii.toActionPolicy
  | .custom => cfg.secrets.toActionPolicy

/-- `MatchResult` of `src/utils/matcher.ts`. -/
structure MatchResult : Type where
  «match» : SecretMatch
  action : SeverityAction
  deriving DecidableEq, Repr

/-- One iteration of the `for (const match of allMatches)` selection
loop of `detectSecret`: skip an allowlisted match, keep a match whose
severity rank strictly exceeds the best so far. -/
def selStep (text : Str) (cfg : Config) (acc : Option SecretMatch × Int)
    (m : SecretMatch) : Option SecretMatch × Int :=
  let matchedText := sliceJS text m.index (m.index + m.length)
  if isMatchAllowlisted matchedText cfg.allowlist.patterns then acc
  else if (SEVERITY_RANK m.severity : Int) > acc.2 then
    (some m, (SEVERITY_RANK m.severity : Int))
  else acc

/-- The selection loop of `detectSecret` (initial rank −1). -/
def selectHighest (text : Str) (cfg : Config) (ms : List SecretMatch) :
    Option SecretMatch × Int :=
  ms.foldl (selStep text cfg) (none, -1)

/-- `detectSecret` of `src/utils/matcher.ts`. -/
def detectSecret (text : Str) (cfg : Config) : Option MatchResult :=
  let patterns := buildPatterns cfg
  let allMatches := detectAll text patterns
  if allMatches.isEmpty then none
  else
    match (selectHighest text cfg allMatches).1 with
    | none => none
    | some highestMatch =>
        let customPattern :=
          cfg.customPatterns.find? (fun c => "custom_".data ++ c.name = highestMatch.type)
        match customPattern.bind (fun c => c.action) with
        | some a => some ⟨highestMatch, a⟩
        | none =>
            let configSection := getConfigForCategory cfg highestMatch.category
            some ⟨highestMatch, getActionForSeverity highestMatch.severity configSection⟩

/-- `hasSecret`. -/
def hasSecret (text : Str) (cfg : Config) : Bool := (detectSecret text cfg).isSome

/-- `getActionForFirstMatch`. -/
def getActionForFirstMatch (text : Str) (cfg : Config) : Option SeverityAction :=
  (detectSecret text cfg).map (fun r => r.action)

end ClawGuardian

namespace ClawGuardian

/-! ## Redactor (`src/utils/redact.ts`) -/

/-- `REDACT_PLACEHOLDER`. -/
def REDACT_PLACEHOLDER : Str := "[REDACTED]".data

/-- `maskToken` of the shipped `redact.ts`: every token masks to the
placeholder. -/
def maskToken (_token : Str) : Str := REDACT_PLACEHOLDER

/-- `block.split(/\r?\n/)`. -/
def splitLines : Str → List Str
  | [] => [[]]
  | '\r' :: '\n' :: rest => [] :: splitLines rest
  | '\n' :: rest => [] :: splitLines rest
  | c :: rest =>
      match splitLines rest with
      | l :: ls => (c :: l) :: ls
      | [] => [[c]]

/-- `redactPemBlock`: keep the first and last non-empty line around an
ellipsis marker. -/
def redactPemBlock (block : Str) : Str :=
  let lines := (splitLines block).filter (fun l => !l.isEmpty)
  if lines.length < 2 then "***".data
  else lines.headD [] ++ "\n…redacted…\n".data ++ (lines.getLast?.getD [])

/-- `redactMatch`: PEM blocks go to `redactPemBlock`; otherwise the last
non-empty capture group (or the whole match) is masked in place. -/
def redactMatch («match» : Str) (groups : List (Option Str)) : Str :=
  if occursIn "PRIVATE KEY-----".data «match» then redactPemBlock «match»
  else
    let token :=
      (((groups.filterMap id).filter (fun v => v.length > 0)).getLast?).getD «match»
    let masked := maskToken token
    if token = «match» then masked
    else replaceFirst «match» token masked

/-- `redactText`: fold every built pattern's global replace over the
text (the `!text` guard returns empty text unchanged). -/
def redactText (text : Str) (cfg : Config) : Str :=
  if text.isEmpty then text
  else
    (buildPatterns cfg).foldl
      (fun next p => globalReplace p.regex next (fun m gs => redactMatch m gs)) text

/-! ## JSON-like parameter trees -/

/-- A JavaScript JSON-like value, including `undefined`. -/
inductive Json : Type
  | null : Json
  | undef : Json
  | bool (b : Bool) : Json
  | num (n : Int) : Json
  | str (s : Str) : Json
  | arr (xs : List Json) : Json
  | obj (kvs : List (Str × Json)) : Json

/-- `redactParams` of `src/utils/redact.ts`, structurally recursive on
a fuel bounding the nesting depth: a `null`/`undefined` or scalar root
becomes an empty mapping, an array root is returned as-is, and mapping
entries are rewritten — strings through `redactText`, nested mappings
recursively, arrays with their string elements redacted, everything
else unchanged. -/
def redactParamsAux : Nat → Json → Config → Json
  | 0, _, _ => .obj []
  | fuel + 1, params, cfg =>
      match params with
      | .null => .obj []
      | .undef => .obj []
      | .arr xs => .arr xs
      | .obj kvs =>
          .obj (kvs.map (fun kv => (kv.1,
            match kv.2 with
            | .str s => .str (redactText s cfg)
            | .obj kvs2 => redactParamsAux fuel (.obj kvs2) cfg
            | .arr xs => .arr (xs.map (fun item =>
                match item with
                | .str s => .str (redactText s cfg)
                | other => other))
            | other => other)))
      | .bool _ => .obj []
      | .num _ => .obj []
      | .str _ => .obj []

mutual

/-- Mapping-nesting depth of a JSON value (the fuel `redactParams`
needs). -/
def jsonDepth : Json → Nat
  | .obj kvs => 1 + jsonDepthEntries kvs
  | _ => 1

/-- Maximal depth over a mapping's entries. -/
def jsonDepthEntries : List (Str × Json) → Nat
  | [] => 0
  | kv :: rest => max (jsonDepth kv.2) (jsonDepthEntries rest)

end

/-- `redactParams`, fuel instantiated with the nesting depth. -/
def redactParams (params : Json) (cfg : Config) : Json :=
  redactParamsAux (jsonDepth params) params cfg

end ClawGuardian

namespace ClawGuardian

/-! ## Destructive command detection (`src/destructive/detector.ts`) -/

/-- `DestructiveCategory`. -/
inductive DestructiveCategory : Type
  | fileDelete | gitDestructive | sqlDestructive | systemDestructive
  | processKill | networkDestructive | privilegeEscalation
  deriving DecidableEq, Repr

/-- `DestructiveMatch` (`DestructiveSeverity` coincides with `Severity`). -/
structure DestructiveMatch : Type where
  category : DestructiveCategory
  reason : Str
  severity : Severity
  pattern : Str
  deriving DecidableEq, Repr

/-- `isDestructiveRm`: scan flags up to `--`; `--force`/`--recursive`
or combined short flags containing `f` resp. `r`/`R` set the two bits;
destructive iff both are set. -/
def isDestructiveRm (args : List Str) : Option DestructiveMatch :=
  let scanned := args.takeWhile (fun a => a ≠ "--".data)
  let step : Bool × Bool → Str → Bool × Bool := fun fr arg =>
    let force := fr.1 || arg = "--force".data
    let recursive := fr.2 || arg = "--recursive".data
    if startsWithJS arg "-".data && arg ≠ "-".data && arg ≠ "--".data then
      (force || arg.contains 'f', recursive || arg.contains 'r' || arg.contains 'R')
    else (force, recursive)
  let fr := scanned.foldl step (false, false)
  if fr.1 && fr.2 then
    some ⟨.fileDelete, "Recursive force deletion (rm -rf)".data, .critical, "rm -rf".data⟩
  else none

/-- The subcommand-finding loop of `isDestructiveGit`: skip `--x=y`
global options, valued global options (with their value), `-`-options;
stop at `--` (no subcommand) or the first plain word.  (Fuel-indexed;
every step drops at least one argument.) -/
def findGitSubcmdAux : Nat → List Str → Nat → Option (Str × Nat)
  | 0, _, _ => none
  | _ + 1, [], _ => none
  | fuel + 1, a :: rest, i =>
      if startsWithJS a "--".data && (a.drop 2).contains '=' then
        findGitSubcmdAux fuel rest (i + 1)
      else if (["-C", "-c", "--exec-path", "--html-path", "--man-path", "--info-path",
          "--git-dir", "--work-tree", "--namespace", "--super-prefix"].map String.data).contains a
      then
        findGitSubcmdAux fuel (rest.drop 1) (i + 2)
      else if a = "--".data then none
      else if startsWithJS a "-".data then findGitSubcmdAux fuel rest (i + 1)
      else some (a, i)

/-- The subcommand-finding loop, fuel instantiated. -/
def findGitSubcmd (args : List Str) (i : Nat) : Option (Str × Nat) :=
  findGitSubcmdAux (args.length + 1) args i

/-- `isDestructiveGit` of `detector.ts`. -/
def isDestructiveGit (args : List Str) : Option DestructiveMatch :=
  match findGitSubcmd args 0 with
  | none => none
  | some (subcmd, subcmdIdx) =>
      if (["reset", "revert", "checkout", "restore"].map String.data).contains subcmd then
        let hasHard := args.any (fun a => a = "--hard".data)
        some ⟨.gitDestructive,
          "git ".data ++ subcmd ++ (if hasHard then " --hard".data else []) ++
            " can lose uncommitted changes".data,
          if hasHard then .critical else .high,
          "git ".data ++ subcmd⟩
      else if subcmd = "clean".data then
        if args.any (fun a => a = "-f".data || a = "--force".data) then
          some ⟨.gitDestructive, "git clean -f removes untracked files permanently".data,
            .high, "git clean -f".data⟩
        else none
      else if subcmd = "switch".data then
        if args.any (fun a => a = "-f".data || a = "--force".data || a = "--discard-changes".data)
        then
          some ⟨.gitDestructive, "git switch with force/discard-changes loses uncommitted work".data,
            .high, "git switch -f".data⟩
        else none
      else if subcmd = "stash".data then
        if subcmdIdx + 1 < args.length then
          let stashOp := args.getD (subcmdIdx + 1) []
          if (["drop", "clear", "pop"].map String.data).contains stashOp then
            some ⟨.gitDestructive,
              "git stash ".data ++ stashOp ++ " can lose stashed changes".data,
              if stashOp = "clear".data then .critical else .high,
              "git stash ".data ++ stashOp⟩
          else none
        else none
      else if subcmd = "push".data then
        if args.any (fun a => a = "-f".data || a = "--force".data || a = "--force-with-lease".data)
        then
          some ⟨.gitDestructive, "git push --force can overwrite remote history".data,
            .critical, "git push --force".data⟩
        else none
      else if subcmd = "branch".data then
        if args.any (fun a => a = "-d".data || a = "-D".data || a = "--delete".data) then
          some ⟨.gitDestructive, "git branch delete removes branch".data,
            .medium, "git branch -d".data⟩
        else none
      else if subcmd = "reflog".data then
        if subcmdIdx + 1 < args.length then
          let reflogOp := args.getD (subcmdIdx + 1) []
          if (["expire", "delete"].map String.data).contains reflogOp then
            some ⟨.gitDestructive,
              "git reflog ".data ++ reflogOp ++ " removes recovery points".data,
              .critical, "git reflog ".data ++ reflogOp⟩
          else none
        else none
      else none

/-- `/\bDROP\s+(TABLE|DATABASE|SCHEMA|INDEX)\b/i`. -/
def sqlDropRE : RE :=
  cat [.wordB, litCI "DROP".data, plus (.cls isJsSpace),
    .group 1 (alts [litCI "TABLE".data, litCI "DATABASE".data, litCI "SCHEMA".data,
      litCI "INDEX".data]), .wordB]

/-- `/\bTRUNCATE\s+TABLE\b/i`. -/
def sqlTruncateRE : RE :=
  cat [.wordB, litCI "TRUNCATE".data, plus (.cls isJsSpace), litCI "TABLE".data, .wordB]

/-- `/\bDELETE\s+FROM\s+\w+\s*(?:;|$)/i`. -/
def sqlDeleteRE : RE :=
  cat [.wordB, litCI "DELETE".data, plus (.cls isJsSpace), litCI "FROM".data,
    plus (.cls isJsSpace), plus (.cls isWordChar), .star (.cls isJsSpace),
    alts [ch ';', .eol]]

/-- `/\bUPDATE\s+\w+\s+SET\s+(?!.*\bWHERE\b)/i`. -/
def sqlUpdateRE : RE :=
  cat [.wordB, litCI "UPDATE".data, plus (.cls isJsSpace), plus (.cls isWordChar),
    plus (.cls isJsSpace), litCI "SET".data, plus (.cls isJsSpace),
    .nla (cat [.star (.cls jsDot), .wordB, litCI "WHERE".data, .wordB])]

/-- `/\bALTER\s+TABLE\s+\w+\s+DROP\b/i`. -/
def sqlAlterRE : RE :=
  cat [.wordB, litCI "ALTER".data, plus (.cls isJsSpace), litCI "TABLE".data,
    plus (.cls isJsSpace), plus (.cls isWordChar), plus (.cls isJsSpace),
    litCI "DROP".data, .wordB]

/-- `isDestructiveSql`: first matching pattern wins. -/
def isDestructiveSql (text : Str) : Option DestructiveMatch :=
  if testRE sqlDropRE text then
    some ⟨.sqlDestructive, "SQL DROP statement permanently removes data".data, .critical,
      "DROP".data⟩
  else if testRE sqlTruncateRE text then
    some ⟨.sqlDestructive, "SQL TRUNCATE removes all rows from table".data, .critical,
      "TRUNCATE".data⟩
  else if testRE sqlDeleteRE text then
    some ⟨.sqlDestructive, "DELETE without WHERE clause removes all rows".data, .critical,
      "DELETE without WHERE".data⟩
  else if testRE sqlUpdateRE text then
    some ⟨.sqlDestructive, "UPDATE without WHERE clause modifies all rows".data, .high,
      "UPDATE without WHERE".data⟩
  else if testRE sqlAlterRE text then
    some ⟨.sqlDestructive, "ALTER TABLE DROP removes column/constraint".data, .high,
      "ALTER TABLE DROP".data⟩
  else none

/-- `isDestructiveSystem` of `detector.ts`. -/
def isDestructiveSystem (command : Str) (args : List Str) : Option DestructiveMatch :=
  let cmd := lowerStr command
  if (["shutdown", "reboot", "halt", "poweroff", "init"].map String.data).contains cmd then
    some ⟨.systemDestructive, cmd ++ " will shut down or restart the system".data,
      .critical, cmd⟩
  else if (["format", "fdisk", "mkfs", "dd", "parted", "gdisk"].map String.data).contains cmd
  then
    some ⟨.systemDestructive, cmd ++ " can destroy disk data".data, .critical, cmd⟩
  else if (["kill", "pkill", "killall"].map String.data).contains cmd then
    let hasSignal9 := args.any (fun a =>
      a = "-9".data || a = "-KILL".data || a = "-SIGKILL".data)
    some ⟨.processKill,
      cmd ++ (if hasSignal9 then " -9".data else []) ++ " terminates processes".data,
      if hasSignal9 then .high else .medium, cmd⟩
  else if (["iptables", "firewall-cmd", "ufw", "nft"].map String.data).contains cmd then
    some ⟨.networkDestructive, cmd ++ " modifies firewall rules".data, .high, cmd⟩
  else if (["chmod", "chown", "chgrp"].map String.data).contains cmd then
    let hasRecursive := args.any (fun a => a = "-R".data || a = "--recursive".data)
    let hasSensitivePath := args.any (fun a =>
      a = "/".data || a = "~".data || startsWithJS a "/etc".data || startsWithJS a "/usr".data ||
      startsWithJS a "/bin".data || startsWithJS a "/sbin".data)
    if hasRecursive && hasSensitivePath then
      some ⟨.systemDestructive, cmd ++ " -R on system directory can break the system".data,
        .critical, cmd ++ " -R".data⟩
    else none
  else none

/-- Result of `checkPrivilegeEscalation`. -/
structure PrivEscResult : Type where
  «match» : DestructiveMatch
  innerCommand : Str
  innerArgs : List Str
  deriving DecidableEq, Repr

/-- The flag-skipping loop for `sudo`/`doas`: valued flags consume two
positions, other `-`-flags one; the first plain word is the command. -/
def sudoInnerAux : Nat → List Str → Str × List Str
  | 0, _ => ([], [])
  | _ + 1, [] => ([], [])
  | fuel + 1, a :: rest =>
      if (["-u", "-g", "-C", "-h", "-p", "-r", "-t", "-U", "-D"].map String.data).contains a
      then sudoInnerAux fuel (rest.drop 1)
      else if startsWithJS a "-".data then sudoInnerAux fuel rest
      else (a, rest)

/-- The flag-skipping loop, fuel instantiated. -/
def sudoInner (args : List Str) : Str × List Str :=
  sudoInnerAux (args.length + 1) args

/-- The option-skipping loop for `pkexec`. -/
def pkexecInner : List Str → Str × List Str
  | [] => ([], [])
  | a :: rest =>
      if startsWithJS a "-".data then pkexecInner rest
      else (a, rest)

/-- `str.split(/\s+/)` (JS whitespace-run split, keeping a leading or
trailing empty segment). -/
def splitWSAux : Nat → Str → List Str
  | 0, _ => [[]]
  | _ + 1, [] => [[]]
  | fuel + 1, c :: rest =>
      if isJsSpace c then [] :: splitWSAux fuel (rest.dropWhile isJsSpace)
      else
        match splitWSAux fuel rest with
        | p :: ps => (c :: p) :: ps
        | [] => [[c]]

/-- `str.split(/\s+/)`. -/
def splitWS (s : Str) : List Str := splitWSAux (s.length + 1) s

/-- `checkPrivilegeEscalation` of `detector.ts`. -/
def checkPrivilegeEscalation (command : Str) (args : List Str) : Option PrivEscResult :=
  let cmd := lowerStr command
  if !((["sudo", "doas", "pkexec", "su"].map String.data).contains cmd) then none
  else
    let inner : Str × List Str :=
      if cmd = "sudo".data || cmd = "doas".data then sudoInner args
      else if cmd = "su".data then
        match args.findIdx? (fun a => a = "-c".data) with
        | some cIdx =>
            if cIdx + 1 < args.length then
              let cmdStr := args.getD (cIdx + 1) []
              let parts := splitWS cmdStr
              (parts.headD [], parts.drop 1)
            else ([], [])
        | none => ([], [])
      else pkexecInner args
    some ⟨⟨.privilegeEscalation, cmd ++ " runs command with elevated privileges".data,
      .high, cmd⟩, inner.1, inner.2⟩

/-- The denylist of `hasDangerousPath`, each entry transcribing one
regex of the source. -/
def dangerousPaths : List (RE × Str × Severity) := [
  -- /^\/$/
  (cat [.bol, ch '/', .eol], "Root directory".data, .critical),
  -- /^~$/
  (cat [.bol, ch '~', .eol], "Home directory".data, .critical),
  -- /^\$HOME$/i
  (cat [.bol, ch '$', litCI "HOME".data, .eol], "Home directory".data, .critical),
  -- /^\/etc\b/
  (cat [.bol, lit "/etc".data, .wordB], "System config directory".data, .critical),
  -- /^\/usr\b/
  (cat [.bol, lit "/usr".data, .wordB], "System directory".data, .critical),
  -- /^\/bin\b/
  (cat [.bol, lit "/bin".data, .wordB], "System binaries".data, .critical),
  -- /^\/sbin\b/
  (cat [.bol, lit "/sbin".data, .wordB], "System binaries".data, .critical),
  -- /^\/boot\b/
  (cat [.bol, lit "/boot".data, .wordB], "Boot directory".data, .critical),
  -- /^\/var\/log\b/
  (cat [.bol, lit "/var/log".data, .wordB], "System logs".data, .high),
  -- /^\/var\/lib\b/
  (cat [.bol, lit "/var/lib".data, .wordB], "System data".data, .high),
  -- /^C:\\Windows/i
  (cat [.bol, litCI "C:\\Windows".data], "Windows system directory".data, .critical),
  -- /^C:\\Program Files/i
  (cat [.bol, litCI "C:\\Program Files".data], "Windows programs".data, .critical),
  -- /System32/i
  (litCI "System32".data, "Windows system directory".data, .critical),
  -- /\.ssh\b/
  (cat [ch '.', lit "ssh".data, .wordB], "SSH configuration".data, .high),
  -- /\.gnupg\b/
  (cat [ch '.', lit "gnupg".data, .wordB], "GPG configuration".data, .high),
  -- /\*\s*$/
  (cat [ch '*', .star (.cls isJsSpace), .eol], "Wildcard pattern".data, .medium)]

/-- `hasDangerousPath`: first argument matching any denylist entry. -/
def hasDangerousPath (args : List Str) : Option DestructiveMatch :=
  args.findSome? (fun arg =>
    dangerousPaths.findSome? (fun e =>
      if testRE e.1 arg then
        some ⟨.fileDelete, "Operation on ".data ++ e.2.1, e.2.2, arg⟩
      else none))

/-- `isDestructiveFind` of `detector.ts`. -/
def isDestructiveFind (args : List Str) : Option DestructiveMatch :=
  let hasDelete := args.any (fun a => a = "-delete".data)
  let hasExecRm := (args.zip (args.drop 1)).any (fun p =>
    p.1 = "-exec".data && (p.2 = "rm".data || endsWithJS p.2 "/rm".data))
  if hasDelete || hasExecRm then
    let startPath := args.find? (fun a => !startsWithJS a "-".data && a ≠ "find".data)
    let isDangerousPath :=
      match startPath with
      | some sp =>
          sp = "/".data || sp = "~".data || sp = "$HOME".data ||
          startsWithJS sp "/etc".data || startsWithJS sp "/usr".data
      | none => false
    some ⟨.fileDelete,
      "find with ".data ++ (if hasDelete then "-delete".data else "-exec rm".data) ++
        " can remove many files".data,
      if isDangerousPath then .critical else .high,
      if hasDelete then "find -delete".data else "find -exec rm".data⟩
  else none

/-- `isDestructiveXargs` of `detector.ts`. -/
def isDestructiveXargs (args : List Str) : Option DestructiveMatch :=
  match args.findIdx? (fun a => a = "rm".data || endsWithJS a "/rm".data) with
  | some rmIdx =>
      let rmArgs := args.drop (rmIdx + 1)
      match isDestructiveRm rmArgs with
      | some rmMatch =>
          some { rmMatch with
            reason := "xargs ".data ++ rmMatch.reason,
            pattern := "xargs ".data ++ rmMatch.pattern }
      | none =>
          some ⟨.fileDelete, "xargs rm can delete many files".data, .high, "xargs rm".data⟩
  | none => none

/-- `/\b(?:curl|wget)\b[^|]*\|\s*(?:bash|sh|zsh|ksh|fish)\b/i` -/
def rcePipeRE : RE :=
  cat [.wordB, alts [litCI "curl".data, litCI "wget".data], .wordB,
    .star (.cls (fun c => c ≠ '|')), ch '|', .star (.cls isJsSpace),
    alts [litCI "bash".data, litCI "sh".data, litCI "zsh".data, litCI "ksh".data,
      litCI "fish".data], .wordB]

/-- `/\b(?:curl|wget)\b[^|]*\|\s*(?:sudo\s+)?(?:bash|sh|zsh|ksh|fish)\b/i` -/
def rceSudoPipeRE : RE :=
  cat [.wordB, alts [litCI "curl".data, litCI "wget".data], .wordB,
    .star (.cls (fun c => c ≠ '|')), ch '|', .star (.cls isJsSpace),
    opt (.seq (litCI "sudo".data) (plus (.cls isJsSpace))),
    alts [litCI "bash".data, litCI "sh".data, litCI "zsh".data, litCI "ksh".data,
      litCI "fish".data], .wordB]

/-- `/\bpython[23]?\s+-c\s+["'].*(?:urllib|requests).*exec/i` -/
def rcePythonRE : RE :=
  cat [.wordB, litCI "python".data, opt (oneOf "23".data), plus (.cls isJsSpace),
    litCI "-c".data, plus (.cls isJsSpace), oneOf "\"'".data, .star (.cls jsDot),
    alts [litCI "urllib".data, litCI "requests".data], .star (.cls jsDot),
    litCI "exec".data]

/-- ``/\beval\s+["'`]\$\((?:curl|wget)/i`` -/
def rceEvalRE : RE :=
  cat [.wordB, litCI "eval".data, plus (.cls isJsSpace), oneOf "\"'`".data,
    ch '$', ch '(', alts [litCI "curl".data, litCI "wget".data]]

/-- `isRemoteCodeExecution` of `detector.ts`. -/
def isRemoteCodeExecution (fullCommand : Str) : Option DestructiveMatch :=
  if testRE rcePipeRE fullCommand then
    some ⟨.systemDestructive, "Remote code execution via curl|bash".data, .critical,
      "curl|bash".data⟩
  else if testRE rceSudoPipeRE fullCommand then
    some ⟨.systemDestructive, "Remote code execution via curl|sudo bash".data, .critical,
      "curl|sudo bash".data⟩
  else if testRE rcePythonRE fullCommand then
    some ⟨.systemDestructive, "Remote code execution via python remote exec".data, .critical,
      "python remote exec".data⟩
  else if testRE rceEvalRE fullCommand then
    some ⟨.systemDestructive, "Remote code execution via eval $(curl)".data, .critical,
      "eval $(curl)".data⟩
  else none

/-- `/(?:^|[;&|])\s*>[\s|]*([^\s;&|]+)/` of `isFileTruncation`. -/
def truncateRE : RE :=
  cat [alts [.bol, oneOf ";&|".data], .star (.cls isJsSpace), ch '>',
    .star (.cls (fun c => isJsSpace c || c = '|')),
    .group 1 (plus (.cls (fun c => !(isJsSpace c || c = ';' || c = '&' || c = '|'))))]

/-- `isFileTruncation` of `detector.ts`. -/
def isFileTruncation (fullCommand : Str) : Option DestructiveMatch :=
  match execFrom truncateRE fullCommand 0 with
  | none => none
  | some (_, _, caps) =>
      match capLookup caps 1 with
      | none => none
      | some (s, e) =>
          let path := sliceJS fullCommand s e
          let isDangerous :=
            (["/etc/", "/usr/", "/bin/", "/sbin/", "/boot/", "/var/"].map String.data).any
              (fun p => startsWithJS path p) || path = "/dev/null".data
          if isDangerous || startsWithJS path "/".data then
            some ⟨.fileDelete, "File truncation can destroy ".data ++ path,
              if isDangerous then .critical else .high, "> ".data ++ path⟩
          else none

end ClawGuardian

namespace ClawGuardian

mutual

/-- JS `String(x)` on a JSON-like value (used by `params.args.map(String)`). -/
def jsString : Json → Str
  | .null => "null".data
  | .undef => "undefined".data
  | .bool true => "true".data
  | .bool false => "false".data
  | .num n => (toString n).data
  | .str s => s
  | .arr xs => jsStringArr xs
  | .obj _ => "[object Object]".data

/-- JS array `toString`: elements joined by commas, `null`/`undefined`
elements become empty. -/
def jsStringArr : List Json → Str
  | [] => []
  | [x] => (match x with | .null => [] | .undef => [] | other => jsString other)
  | x :: rest =>
      (match x with | .null => [] | .undef => [] | other => jsString other) ++
        [','] ++ jsStringArr rest

end

/-- JS `arr.join(" ")`: elements stringified, `null`/`undefined` empty. -/
def jsJoinSpace : List Json → Str
  | [] => []
  | [x] => (match x with | .null => [] | .undef => [] | other => jsString other)
  | x :: rest =>
      (match x with | .null => [] | .undef => [] | other => jsString other) ++
        " ".data ++ jsJoinSpace rest

/-- Property lookup on a parameter object. -/
def jlookup (params : List (Str × Json)) (k : Str) : Option Json :=
  (params.find? (fun kv => kv.1 = k)).map (fun kv => kv.2)

/-- The command/args/fullCommand extraction of `detectDestructive`
(lines 578–606): a `command`/`cmd` string is whitespace-split, an `args`
array is stringified, an `input` string sets only `fullCommand` and is
pre-checked for SQL (signalled by the fourth component). -/
def extractCommand (params : List (Str × Json)) : Str × List Str × Str × Bool :=
  match jlookup params "command".data with
  | some (.str s) =>
      let parts := splitWS s
      (parts.headD [], parts.drop 1, s, false)
  | _ =>
    match jlookup params "cmd".data with
    | some (.str s) =>
        let parts := splitWS s
        (parts.headD [], parts.drop 1, s, false)
    | _ =>
      match jlookup params "args".data with
      | some (.arr xs) =>
          let args0 := xs.map jsString
          ((args0.headD []), args0.drop 1, jsJoinSpace xs, false)
      | _ =>
        match jlookup params "input".data with
        | some (.str s) => ([], [], s, true)
        | _ => ([], [], [], false)

/-- `command.split("/").pop().toLowerCase() || name`. -/
def normalizeCmdName (command : Str) (name : Str) : Str :=
  let base := lowerStr ((splitOnChar '/' command).getLast?.getD [])
  if base.isEmpty then name else base

/-- The inner-command dispatch of the privilege-escalation branch of
`detectDestructive` (lines 627–689): re-run the rm/git/find detectors,
then the system detector, then the dangerous-path check on the inner
command; prefix reason and pattern with `"sudo "`; severity is raised to
`critical` in every branch except git, which keeps the inner severity. -/
def privEscInnerDispatch (privEsc : PrivEscResult) : Option DestructiveMatch :=
  let innerCmdName := lowerStr ((splitOnChar '/' privEsc.innerCommand).getLast?.getD [])
  let rmStage : Option DestructiveMatch :=
    if innerCmdName = "rm".data || innerCmdName = "del".data || innerCmdName = "remove".data
    then
      (isDestructiveRm privEsc.innerArgs).map (fun rmMatch =>
        { rmMatch with
          reason := "sudo ".data ++ rmMatch.reason,
          severity := .critical,
          pattern := "sudo ".data ++ rmMatch.pattern })
    else none
  match rmStage with
  | some m => some m
  | none =>
    let gitStage : Option DestructiveMatch :=
      if innerCmdName = "git".data then
        (isDestructiveGit privEsc.innerArgs).map (fun gitMatch =>
          { gitMatch with
            reason := "sudo ".data ++ gitMatch.reason,
            pattern := "sudo ".data ++ gitMatch.pattern })
      else none
    match gitStage with
    | some m => some m
    | none =>
      let findStage : Option DestructiveMatch :=
        if innerCmdName = "find".data then
          (isDestructiveFind privEsc.innerArgs).map (fun findMatch =>
            { findMatch with
              reason := "sudo ".data ++ findMatch.reason,
              severity := .critical,
              pattern := "sudo ".data ++ findMatch.pattern })
        else none
      match findStage with
      | some m => some m
      | none =>
        match isDestructiveSystem innerCmdName privEsc.innerArgs with
        | some innerSysMatch =>
            some { innerSysMatch with
              reason := "sudo ".data ++ innerSysMatch.reason,
              severity := .critical,
              pattern := "sudo ".data ++ innerSysMatch.pattern }
        | none =>
          match hasDangerousPath privEsc.innerArgs with
          | some innerPathMatch =>
              some { innerPathMatch with
                reason := "sudo ".data ++ innerPathMatch.reason,
                severity := .critical,
                pattern := "sudo ".data ++ innerPathMatch.pattern }
          | none => none

/-- `detectDestructive` of `detector.ts`: extraction, remote-execution
and truncation checks on the full command, privilege-escalation unwrap,
per-command sub-detectors, generic system check, dangerous-path check,
SQL check over every string parameter. -/
def detectDestructive (toolName : Str) (params : List (Str × Json)) :
    Option DestructiveMatch :=
  let name := lowerStr toolName
  let ext := extractCommand params
  let command := ext.1
  let args := ext.2.1
  let fullCommand := ext.2.2.1
  let inputSqlCheck := ext.2.2.2
  let earlySql : Option DestructiveMatch :=
    if inputSqlCheck then isDestructiveSql fullCommand else none
  match earlySql with
  | some m => some m
  | none =>
    let rceOrTrunc : Option DestructiveMatch :=
      if !fullCommand.isEmpty then
        match isRemoteCodeExecution fullCommand with
        | some m => some m
        | none => isFileTruncation fullCommand
      else none
    match rceOrTrunc with
    | some m => some m
    | none =>
      let cmdName := normalizeCmdName command name
      match checkPrivilegeEscalation cmdName args with
      | some privEsc =>
          (match privEscInnerDispatch privEsc with
           | some m => some m
           | none => some privEsc.«match»)
      | none =>
        let rmStage : Option DestructiveMatch :=
          if cmdName = "rm".data || cmdName = "del".data || cmdName = "remove".data then
            isDestructiveRm args
          else none
        match rmStage with
        | some m => some m
        | none =>
          let gitStage : Option DestructiveMatch :=
            if cmdName = "git".data then isDestructiveGit args else none
          match gitStage with
          | some m => some m
          | none =>
            let findStage : Option DestructiveMatch :=
              if cmdName = "find".data then isDestructiveFind args else none
            match findStage with
            | some m => some m
            | none =>
              let xargsStage : Option DestructiveMatch :=
                if cmdName = "xargs".data then isDestructiveXargs args else none
              match xargsStage with
              | some m => some m
              | none =>
                match isDestructiveSystem cmdName args with
                | some m => some m
                | none =>
                  match hasDangerousPath args with
                  | some m => some m
                  | none =>
                      params.findSome? (fun kv =>
                        match kv.2 with
                        | .str v => isDestructiveSql v
                        | _ => none)

/-- `mightBeDestructive`. -/
def mightBeDestructive (toolName : Str) (params : List (Str × Json)) : Bool :=
  (detectDestructive toolName params).isSome

end ClawGuardian

namespace ClawGuardian

/-! ## JSON serialization (`JSON.stringify`, used by the hook) -/

/-- Hex digit character. -/
def hexDigit (n : Nat) : Char := if n < 10 then Char.ofNat (48 + n) else Char.ofNat (87 + n)

/-- `JSON.stringify` escaping of one character. -/
def escapeJsonChar (c : Char) : Str :=
  if c = '"' then ['\\', '"']
  else if c = '\\' then ['\\', '\\']
  else if c = '\n' then ['\\', 'n']
  else if c = '\r' then ['\\', 'r']
  else if c = '\t' then ['\\', 't']
  else if c = Char.ofNat 8 then ['\\', 'b']
  else if c = Char.ofNat 12 then ['\\', 'f']
  else if c.toNat < 32 then ['\\', 'u', '0', '0', hexDigit (c.toNat / 16), hexDigit (c.toNat % 16)]
  else [c]

/-- A JSON-quoted string. -/
def jsonQuote (s : Str) : Str := '"' :: (s.flatMap escapeJsonChar ++ ['"'])

mutual

/-- `JSON.stringify`: `none` for `undefined`; `undefined` object values
are omitted, `undefined` array elements become `null`. -/
def stringifyJson : Json → Option Str
  | .null => some "null".data
  | .undef => none
  | .bool true => some "true".data
  | .bool false => some "false".data
  | .num n => some (toString n).data
  | .str s => some (jsonQuote s)
  | .arr xs => some ('[' :: (stringifyArr xs ++ [']']))
  | .obj kvs => some (Char.ofNat 0x7b :: (stringifyObj kvs ++ [Char.ofNat 0x7d]))

/-- Array elements, comma separated. -/
def stringifyArr : List Json → Str
  | [] => []
  | [x] => (stringifyJson x).getD "null".data
  | x :: rest => (stringifyJson x).getD "null".data ++ [','] ++ stringifyArr rest

/-- Object entries, comma separated, `undefined` values dropped. -/
def stringifyObj : List (Str × Json) → Str
  | [] => []
  | (k, v) :: rest =>
      match stringifyJson v with
      | none => stringifyObj rest
      | some vs =>
          let entry := jsonQuote k ++ [':'] ++ vs
          let restS := stringifyObj rest
          if restS.isEmpty then entry else entry ++ [','] ++ restS

end

/-! ## The `before_tool_call` hook (`src/dist/hooks/before-tool-call.js`) -/

/-- `hasConfirmFlag`: `params._clawguardian_confirm === true`. -/
def hasConfirmFlag (params : Json) : Bool :=
  match params with
  | .obj kvs =>
      (match jlookup kvs "_clawguardian_confirm".data with
       | some (.bool true) => true
       | _ => false)
  | _ => false

/-- `stripConfirmFlag`: remove the flag key; a non-object becomes `{}`
(no caller passes an array here). -/
def stripConfirmFlag (params : Json) : Json :=
  match params with
  | .obj kvs => .obj (kvs.filter (fun kv => kv.1 ≠ "_clawguardian_confirm".data))
  | _ => .obj []

/-- `categoryEnabled` of the hook. -/
def categoryEnabled (m : DestructiveMatch) (categories : DestructiveCategories) : Bool :=
  match m.category with
  | .fileDelete => categories.fileDelete
  | .gitDestructive => categories.gitDestructive
  | .sqlDestructive => categories.sqlDestructive
  | .systemDestructive => categories.systemDestructive
  | .processKill => categories.processKill
  | .networkDestructive => categories.networkDestructive
  | .privilegeEscalation => categories.privilegeEscalation

/-- Spread-set of one key on an object (`{...obj, k: v}`). -/
def objSet (j : Json) (k : Str) (v : Json) : Json :=
  match j with
  | .obj kvs =>
      if (kvs.find? (fun kv => kv.1 = k)).isSome then
        .obj (kvs.map (fun kv => if kv.1 = k then (k, v) else kv))
      else .obj (kvs ++ [(k, v)])
  | other => other

/-- The object entries of a parameter value (a non-object has none). -/
def paramsEntries : Json → List (Str × Json)
  | .obj kvs => kvs
  | _ => []

/-- The string tag of a severity. -/
def severityStr : Severity → Str
  | .critical => "critical".data
  | .high => "high".data
  | .medium => "medium".data
  | .low => "low".data

/-- The string tag of a destructive category. -/
def destructiveCategoryStr : DestructiveCategory → Str
  | .fileDelete => "file_delete".data
  | .gitDestructive => "git_destructive".data
  | .sqlDestructive => "sql_destructive".data
  | .systemDestructive => "system_destructive".data
  | .processKill => "process_kill".data
  | .networkDestructive => "network_destructive".data
  | .privilegeEscalation => "privilege_escalation".data

/-- A hook verdict: proceed unmodified (`return;`), proceed with
replaced parameters, or block with a reason. -/
inductive HookDecision : Type
  | proceed : HookDecision
  | withParams (params : Json) : HookDecision
  | block (blockReason : Str) : HookDecision

/-- The destructive-command stage of the `before_tool_call` handler
(`some` = verdict returned there; `none` = fall through to the
secret/PII stage).  Logging calls are omitted; they never change the
verdict. -/
def destructiveVerdict (cfg : Config) (toolName : Str) (params : Json) :
    Option HookDecision :=
  let confirmed := hasConfirmFlag params
  if cfg.destructive.enabled then
    match detectDestructive toolName (paramsEntries params) with
    | some destructiveMatch =>
        if categoryEnabled destructiveMatch cfg.destructive.categories then
          let action :=
            getActionForSeverity destructiveMatch.severity cfg.destructive.toActionPolicy
          if action = .block then
            some (.block ("Blocked by ClawGuardian: ".data ++ destructiveMatch.reason))
          else if action = .confirm ∧ (toolName = "exec".data ∨ toolName = "bash".data)
          then
            some (.withParams (objSet
              (objSet params "ask".data (.str "always".data))
              "_clawguardian".data
              (.obj [("reason".data, .str destructiveMatch.reason),
                ("severity".data, .str (severityStr destructiveMatch.severity)),
                ("category".data, .str (destructiveCategoryStr destructiveMatch.category))])))
          else if action = .confirm || action = .agentConfirm then
            if confirmed then some (.withParams (stripConfirmFlag params))
            else
              some (.block ("ClawGuardian: ".data ++ destructiveMatch.reason ++
                ". To proceed, re-run with `_clawguardian_confirm: true` in params.".data))
          else none
        else none
    | none => none
  else none

/-- The secret/PII stage of the `before_tool_call` handler. -/
def secretVerdict (cfg : Config) (params : Json) : Option HookDecision :=
  let confirmed := hasConfirmFlag params
  if cfg.filterToolInputs then
    let paramsStr := (stringifyJson params).getD "undefined".data
    match detectSecret paramsStr cfg with
    | some result =>
        if result.action = .block then
          some (.block ("Blocked by ClawGuardian: ".data ++ result.«match».type ++
            " detected in tool parameters".data))
        else if result.action = .redact then
          some (.withParams (redactParams params cfg))
        else if result.action = .confirm || result.action = .agentConfirm then
          if confirmed then
            some (.withParams (objSet (redactParams params cfg)
              "_clawguardian_confirmed".data (.str result.«match».type)))
          else
            some (.block ("ClawGuardian: ".data ++ result.«match».type ++
              " detected. To proceed (with redaction), re-run with `_clawguardian_confirm: true` in params.".data))
        else none
    | none => none
  else none

/-- The `before_tool_call` handler of
`src/dist/hooks/before-tool-call.js`: allowlist short-circuit, then the
destructive stage, then the secret/PII stage, then proceed (stripping a
present confirmation flag). -/
def beforeToolCall (cfg : Config) (toolName : Str) (params : Json)
    (sessionKey : Option Str) : HookDecision :=
  if isAllowlisted cfg.allowlist toolName sessionKey then .proceed
  else
    match destructiveVerdict cfg toolName params with
    | some d => d
    | none =>
      match secretVerdict cfg params with
      | some d => d
      | none =>
          if hasConfirmFlag params then .withParams (stripConfirmFlag params)
          else .proceed

end ClawGuardian

namespace ClawGuardian

/-! ## Specification-side definitions

These restate parts of the observable behavior in independent form, to
be compared with the embedded code. -/

/-- Spec-side acceptance of one raw scan candidate: accept if the rule
has no validator or the validator passes on the matched text. -/
def validatorKeep (p : PatternWithValidator) (t : Str) (m : Nat × Nat × Caps) :
    Option SecretMatch :=
  let mt := sliceJS t m.1 m.2.1
  if (match p.validator with | none => true | some v => v mt) then
    some ⟨p.type, m.1, mt.length, p.severity, p.category⟩
  else none

/-- Spec-side `detectAll` (claim C5's phrasing): for each rule in
registration order, all raw scan candidates filtered by the validator —
candidates are produced independently of validation, so a rejected
candidate cannot stop the rule's scan. -/
def detectAllSpec (text : Str) (patterns : List PatternWithValidator) : List SecretMatch :=
  patterns.flatMap (fun p => (allMatches p.regex text).filterMap (validatorKeep p text))

/-- Prefer a later maximum only when it is strictly higher ranked. -/
def betterOf (a : SecretMatch) : Option SecretMatch → Option SecretMatch
  | none => some a
  | some b => if SEVERITY_RANK b.severity > SEVERITY_RANK a.severity then some b else some a

/-- The first element of maximal severity rank of a match list: an
element is preferred over every strictly-less-ranked element and over
every later equally-ranked one. -/
def firstMaxRank : List SecretMatch → Option SecretMatch
  | [] => none
  | m :: rest => betterOf m (firstMaxRank rest)

/-- Whether one match of `detectSecret`'s candidate list is allowlisted
(by match-text pattern). -/
def matchIsAllowlisted (text : Str) (cfg : Config) (m : SecretMatch) : Bool :=
  isMatchAllowlisted (sliceJS text m.index (m.index + m.length)) cfg.allowlist.patterns

/-- Luhn doubling of one digit, with the digit sum folded in. -/
def doubleFold (d : Nat) : Nat := if 2 * d > 9 then 2 * d - 9 else 2 * d

/-- The standard Luhn checksum over the digits listed from the
rightmost: every second digit (the 1st, 3rd, … from the right being
left alone) is doubled with digit-sum folding. -/
def luhnChecksum : List Nat → Nat
  | [] => 0
  | [d] => d
  | d1 :: d2 :: rest => d1 + doubleFold d2 + luhnChecksum rest

/-- The digit values of a digit string, rightmost first. -/
def digitValuesRev (digits : Str) : List Nat := digits.reverse.map (fun c => c.toNat - 48)

/-! ## Concrete configurations and inputs used by witnesses and
counterexamples -/

/-- Uniform per-severity action table. -/
def saU (a : SeverityAction) : SeverityActions := ⟨a, a, a, a⟩

/-- All destructive categories on. -/
def allDCats : DestructiveCategories := ⟨true, true, true, true, true, true, true⟩

/-- A disabled secrets section. -/
def secretsOff : SecretsConfig := ⟨⟨.redact, saU .redact⟩, false, ⟨false, false, false, false⟩⟩

/-- A disabled PII section. -/
def piiOff : PiiConfig := ⟨⟨.redact, saU .warn⟩, false, ⟨false, false, false, false⟩⟩

/-- A disabled destructive section. -/
def destructiveOff : DestructiveConfig := ⟨⟨.confirm, saU .confirm⟩, false, allDCats⟩

/-- API-keys-only config whose allowlist exempts `sk-test-.*` (the
spec's allowlist example). -/
def cfgApi : Config :=
  { filterToolInputs := true, filterToolOutputs := true,
    secrets := ⟨⟨.redact, ⟨.block, .redact, .redact, .warn⟩⟩, true, ⟨true, false, false, false⟩⟩,
    pii := piiOff, destructive := destructiveOff, customPatterns := [],
    allowlist := { patterns := ["sk-test-.*".data] } }

/-- Two custom patterns of different severities (medium before high). -/
def cfgTwoSev : Config :=
  { filterToolInputs := true, filterToolOutputs := true,
    secrets := secretsOff, pii := piiOff, destructive := destructiveOff,
    customPatterns := [⟨"alpha".data, "AAA_[0-9]\x7b4\x7d".data, some .medium, none⟩,
      ⟨"beta".data, "BBB_[0-9]\x7b4\x7d".data, some .high, none⟩],
    allowlist := {} }

/-- Two custom patterns of equal severity. -/
def cfgTwoEq : Config :=
  { filterToolInputs := true, filterToolOutputs := true,
    secrets := secretsOff, pii := piiOff, destructive := destructiveOff,
    customPatterns := [⟨"gamma".data, "GGG_[0-9]\x7b4\x7d".data, some .high, none⟩,
      ⟨"delta".data, "DDD_[0-9]\x7b4\x7d".data, some .high, none⟩],
    allowlist := {} }

/-- One custom token pattern (round-trip redaction example). -/
def cfgTok : Config :=
  { filterToolInputs := true, filterToolOutputs := true,
    secrets := secretsOff, pii := piiOff, destructive := destructiveOff,
    customPatterns := [⟨"token".data, "ghx_[a-z0-9]\x7b8\x7d".data, none, none⟩],
    allowlist := {} }

/-- Two custom patterns: a token shape and the literal `REDACTED`
(whose matches survive in redacted output). -/
def cfgTok2 : Config :=
  { filterToolInputs := true, filterToolOutputs := true,
    secrets := secretsOff, pii := piiOff, destructive := destructiveOff,
    customPatterns := [⟨"token".data, "ghx_[a-z0-9]\x7b8\x7d".data, none, none⟩,
      ⟨"marker".data, "REDACTED".data, none, none⟩],
    allowlist := {} }

/-- A custom pattern that also matches inside the redaction placeholder
(the letters `RED`). -/
def cfgRed : Config :=
  { filterToolInputs := true, filterToolOutputs := true,
    secrets := secretsOff, pii := piiOff, destructive := destructiveOff,
    customPatterns := [⟨"red".data, "RED".data, none, none⟩],
    allowlist := {} }

/-- A custom pattern over key-shaped values (root-array example). -/
def cfgKeya : Config :=
  { filterToolInputs := true, filterToolOutputs := true,
    secrets := secretsOff, pii := piiOff, destructive := destructiveOff,
    customPatterns := [⟨"keya".data, "KEYA[0-9]\x7b4\x7d".data, none, none⟩],
    allowlist := {} }

/-- Hook config: secrets-stage agent-confirm on high severity, with one
custom pattern; destructive detection off. -/
def cfgAgentSecret : Config :=
  { filterToolInputs := true, filterToolOutputs := true,
    secrets := ⟨⟨.redact, ⟨.block, .agentConfirm, .redact, .warn⟩⟩, false,
      ⟨false, false, false, false⟩⟩,
    pii := piiOff, destructive := destructiveOff,
    customPatterns := [⟨"sek".data, "SEKRET[0-9]+".data, none, none⟩],
    allowlist := {} }

/-- Hook config: destructive stage agent-confirm on critical severity,
secrets filtering off. -/
def cfgAgentDestr : Config :=
  { filterToolInputs := false, filterToolOutputs := true,
    secrets := secretsOff, pii := piiOff,
    destructive := ⟨⟨.confirm, ⟨.agentConfirm, .confirm, .confirm, .warn⟩⟩, true, allDCats⟩,
    customPatterns := [], allowlist := {} }

/-- Parameters carrying a secret plus the confirmation flag. -/
def paramsSek : Json :=
  .obj [("data".data, .str "SEKRET123".data),
    ("_clawguardian_confirm".data, .bool true)]

/-- Parameters carrying the same secret without the flag. -/
def paramsSekNF : Json := .obj [("data".data, .str "SEKRET123".data)]

/-- Parameters carrying a destructive command, without the flag. -/
def paramsRmrf : Json := .obj [("command".data, .str "rm -rf /tmp/x".data)]

/-- Parameters carrying a destructive command, with the flag. -/
def paramsRmrfC : Json :=
  .obj [("command".data, .str "rm -rf /tmp/x".data),
    ("_clawguardian_confirm".data, .bool true)]

end ClawGuardian

namespace ClawGuardian

/-- Example rule matching `zz` (no validator). -/
def ruleZZ : PatternWithValidator := ⟨"rzz".data, lit "zz".data, none, .high, .custom⟩

/-- Example rule matching `q` (no validator). -/
def ruleQ : PatternWithValidator := ⟨"rq".data, lit "q".data, none, .high, .custom⟩

/-- Example rule matching digit runs whose validator accepts only runs
of length at least 3. -/
def ruleNum : PatternWithValidator :=
  ⟨"rnum".data, plus (.cls isDigitChar), some (fun s => decide (3 ≤ s.length)), .high, .custom⟩

/-- Spec-side description of how `redactParams` rewrites one mapping
value: strings through `redactText`, nested mappings recursively,
arrays with string elements redacted, all else unchanged. -/
def redactValueSpec (cfg : Config) : Json → Json
  | .str s => .str (redactText s cfg)
  | .obj kvs => redactParams (.obj kvs) cfg
  | .arr xs => .arr (xs.map (fun item =>
      match item with
      | .str s => .str (redactText s cfg)
      | other => other))
  | other => other

end ClawGuardian

namespace ClawGuardian

/-! ## Helper lemmas -/

/-- The code's Luhn accumulation starting not-doubling equals the
standard checksum. -/
theorem luhnAux_eq : ∀ ds : List Nat, luhnAux ds false = luhnChecksum ds
  | [] => rfl
  | [d] => by simp [luhnAux, luhnChecksum]
  | d1 :: d2 :: rest => by
      have ih := luhnAux_eq rest
      simp [luhnAux, luhnChecksum, doubleFold, ih]
      omega

/-! ## Claim theorems -/

/-- C8: `isValidCreditCard` strips spaces and dashes, requires 13–19
digits, rejects all-identical-digit strings, and accepts exactly when
the standard Luhn doubling-and-digit-sum checksum is divisible by 10;
`4111111111111111`, `5500000000000004`, `6011111111111117` are valid
while `1234567890123456`, `0000000000000000`, `1111111111111111` are
not. -/
theorem isValidCreditCard_spec :
    (∀ s : Str, isValidCreditCard s = true ↔
      (let digits := s.filter (fun c => !(isJsSpace c || c = '-'))
       13 ≤ digits.length ∧ digits.length ≤ 19 ∧ (∀ c ∈ digits, isDigitChar c = true) ∧
       ¬(∀ c ∈ digits, c = digits.headD '0') ∧
       luhnChecksum (digitValuesRev digits) % 10 = 0)) ∧
    isValidCreditCard "4111111111111111".data = true ∧
    isValidCreditCard "5500000000000004".data = true ∧
    isValidCreditCard "6011111111111117".data = true ∧
    isValidCreditCard "1234567890123456".data = false ∧
    isValidCreditCard "0000000000000000".data = false ∧
    isValidCreditCard "1111111111111111".data = false := by
  refine ⟨?_, by decide, by decide, by decide, by decide, by decide, by decide⟩
  intro s
  simp only [isValidCreditCard, digitValuesRev]
  set digits := s.filter (fun c => !(isJsSpace c || c = '-')) with hdig
  by_cases hlen : 13 ≤ digits.length ∧ digits.length ≤ 19 ∧ (∀ c ∈ digits, isDigitChar c = true)
  case neg =>
    have hguard : (!(decide (13 ≤ digits.length) && decide (digits.length ≤ 19) &&
        digits.all isDigitChar)) = true := by
      rcases not_and_or.mp hlen with h | h
      · simp [h]
      rcases not_and_or.mp h with h' | h'
      · simp [h']
      have hx : digits.all isDigitChar = false := by
        rw [← Bool.not_eq_true, List.all_eq_true]
        exact h'
      simp [hx]
    rw [hguard]
    constructor
    · intro h; simp at h
    · rintro ⟨h13, h19, hall, -, -⟩
      exact absurd ⟨h13, h19, hall⟩ hlen
  case pos =>
    obtain ⟨h13, h19, hall⟩ := hlen
    have hguard : (!(decide (13 ≤ digits.length) && decide (digits.length ≤ 19) &&
        digits.all isDigitChar)) = false := by
      simp [h13, h19, List.all_eq_true.mpr hall]
    rw [hguard]
    obtain ⟨c, rest, hcr⟩ : ∃ c rest, digits = c :: rest := by
      cases hd : digits with
      | nil => rw [hd] at h13; simp at h13
      | cons c rest => exact ⟨c, rest, rfl⟩
    have hrestne : rest ≠ [] := by
      intro hr
      rw [hcr, hr] at h13
      simp at h13
    have hrestE : rest.isEmpty = false := by
      cases rest with
      | nil => exact absurd rfl hrestne
      | cons _ _ => rfl
    rw [hcr] at h13 h19 hall ⊢
    by_cases hsame : ∀ x ∈ c :: rest, x = c
    case pos =>
      have hcond : (!rest.isEmpty && rest.all (fun x => x = c)) = true := by
        simp only [hrestE, Bool.not_false, Bool.true_and, List.all_eq_true]
        intro x hx
        simpa using hsame x (List.mem_cons_of_mem _ hx)
      simp only [hcond, List.headD_cons]
      constructor
      · intro h; simp at h
      · rintro ⟨-, -, -, hns, -⟩
        exact absurd hsame hns
    case neg =>
      have hcond : (!rest.isEmpty && rest.all (fun x => x = c)) = false := by
        by_contra hb
        have hab : (!rest.isEmpty && rest.all (fun x => x = c)) = true := by
          revert hb
          cases (!rest.isEmpty && rest.all (fun x => x = c)) <;> simp
        apply hsame
        intro x hx
        rcases List.mem_cons.mp hx with h | h
        · exact h
        · have := List.all_eq_true.mp (Bool.and_eq_true_iff.mp hab).2 x h
          simpa using this
      simp only [hcond, List.headD_cons]
      rw [← luhnAux_eq]
      constructor
      · intro h
        refine ⟨h13, h19, hall, hsame, ?_⟩
        simpa using h
      · rintro ⟨-, -, -, -, h⟩
        simpa using h

end ClawGuardian

namespace ClawGuardian

/-- The interleaved scan-and-validate loop equals scanning all raw
candidates first and filtering by the validator afterwards. -/
theorem scanRuleAux_eq (p : PatternWithValidator) (t : Str) :
    ∀ fuel pos, scanRuleAux t p fuel pos =
      (allMatchesAux p.regex t fuel pos).filterMap (validatorKeep p t)
  | 0, _ => rfl
  | fuel + 1, pos => by
      simp only [scanRuleAux, allMatchesAux]
      cases hx : execFrom p.regex t pos with
      | none => rfl
      | some m =>
          obtain ⟨s, e, cps⟩ := m
          simp only [List.filterMap_cons]
          have ih := scanRuleAux_eq p t fuel (if e = s then e + 1 else e)
          rw [ih]
          cases hv : p.validator with
          | none => simp [validatorKeep, hv]
          | some v =>
              by_cases hvv : v (sliceJS t s e) = true
              · simp [validatorKeep, hv, hvv]
              · simp [validatorKeep, hv, hvv]

/-- C5: `detectAll` returns exactly the validator-passing matches of
every rule, grouped in rule-registration order rather than sorted by
text position, and within a single rule it continues scanning past
candidates rejected by the validator.  The first concrete instance
shows grouping (the first rule's match at index 2 precedes the second
rule's match at index 0); the second shows a rule whose first raw
candidate is rejected by the validator while the later candidate is
still found (two raw candidates, one reported match). -/
theorem detectAll_characterization :
    (∀ (text : Str) (patterns : List PatternWithValidator),
      detectAll text patterns = detectAllSpec text patterns) ∧
    detectAll "q zz".data [ruleZZ, ruleQ] =
      [⟨"rzz".data, 2, 2, .high, .custom⟩, ⟨"rq".data, 0, 1, .high, .custom⟩] ∧
    detectAll "12 3456".data [ruleNum] = [⟨"rnum".data, 3, 4, .high, .custom⟩] ∧
    (allMatches ruleNum.regex "12 3456".data).length = 2 := by
  refine ⟨?_, by decide, by decide, by decide⟩
  intro text patterns
  induction patterns with
  | nil => rfl
  | cons p ps ih =>
      simp only [detectAll, detectAllSpec, List.flatMap_cons] at *
      rw [ih]
      rw [scanRule, allMatches, scanRuleAux_eq]

end ClawGuardian


namespace ClawGuardian

/-- Rank of an optional accumulator (−1 when empty, as in the source's
`highestRank` initialisation). -/
def rankInt : Option SecretMatch → Int
  | none => -1
  | some b => (SEVERITY_RANK b.severity : Int)

/-- A skipped (allowlisted) match leaves the accumulator unchanged. -/
theorem selStep_allow (text : Str) (cfg : Config) (acc : Option SecretMatch × Int)
    (m : SecretMatch) (h : matchIsAllowlisted text cfg m = true) :
    selStep text cfg acc m = acc := by
  simp only [matchIsAllowlisted] at h
  simp [selStep, h]

/-- A kept match updates the accumulator iff its rank strictly
improves. -/
theorem selStep_keep (text : Str) (cfg : Config) (b : Option SecretMatch)
    (m : SecretMatch) (h : matchIsAllowlisted text cfg m = false) :
    selStep text cfg (b, rankInt b) m =
      (if SEVERITY_RANK m.severity > (rankInt b) then (some m, (SEVERITY_RANK m.severity : Int))
       else (b, rankInt b)) := by
  simp only [matchIsAllowlisted] at h
  simp only [selStep, h, Bool.false_eq_true, if_false]

/-- The selection fold of `detectSecret`, with a generalized
accumulator: its result is the first maximal-rank element of the
non-allowlisted sublist, merged with the incoming accumulator by
strict-rank preference. -/
theorem selectHighest_go (text : Str) (cfg : Config) :
    ∀ (ms : List SecretMatch) (b : Option SecretMatch),
      (ms.foldl (selStep text cfg) (b, rankInt b)).1 =
        (match firstMaxRank (ms.filter (fun m => !matchIsAllowlisted text cfg m)), b with
         | none, b => b
         | some c, none => some c
         | some c, some b0 =>
             if SEVERITY_RANK c.severity > SEVERITY_RANK b0.severity then some c else some b0)
  | [], b => by cases b <;> rfl
  | m :: ms, b => by
      by_cases ha : matchIsAllowlisted text cfg m = true
      · rw [List.foldl_cons, selStep_allow text cfg _ m ha, selectHighest_go text cfg ms b]
        simp [List.filter_cons, ha]
      · have ha' : matchIsAllowlisted text cfg m = false := by
          revert ha; cases matchIsAllowlisted text cfg m <;> simp
        have hfil : (m :: ms).filter (fun x => !matchIsAllowlisted text cfg x) =
            m :: ms.filter (fun x => !matchIsAllowlisted text cfg x) := by
          simp [List.filter_cons, ha']
        rw [List.foldl_cons, selStep_keep text cfg b m ha', hfil]
        cases b with
        | none =>
            have hrank : SEVERITY_RANK m.severity > rankInt none := by
              cases m.severity <;> simp [SEVERITY_RANK, rankInt]
            rw [if_pos hrank]
            have : ((some m, (SEVERITY_RANK m.severity : Int)) :
                Option SecretMatch × Int) = (some m, rankInt (some m)) := rfl
            rw [this, selectHighest_go text cfg ms (some m)]
            cases hf : firstMaxRank (ms.filter (fun x => !matchIsAllowlisted text cfg x)) with
            | none => simp [firstMaxRank, betterOf, hf]
            | some c =>
                simp only [firstMaxRank, betterOf, hf]
                by_cases h2 : SEVERITY_RANK c.severity > SEVERITY_RANK m.severity
                · simp [h2]
                · simp [h2]
        | some b0 =>
            by_cases hcmp : SEVERITY_RANK m.severity > SEVERITY_RANK b0.severity
            · have hc' : SEVERITY_RANK m.severity > rankInt (some b0) := by
                simp only [rankInt]; exact_mod_cast hcmp
              rw [if_pos hc']
              have : ((some m, (SEVERITY_RANK m.severity : Int)) :
                  Option SecretMatch × Int) = (some m, rankInt (some m)) := rfl
              rw [this, selectHighest_go text cfg ms (some m)]
              cases hf : firstMaxRank (ms.filter (fun x => !matchIsAllowlisted text cfg x)) with
              | none => simp [firstMaxRank, betterOf, hf, hcmp]
              | some c =>
                  simp only [firstMaxRank, betterOf, hf]
                  by_cases h2 : SEVERITY_RANK c.severity > SEVERITY_RANK m.severity
                  · have h3 : SEVERITY_RANK c.severity > SEVERITY_RANK b0.severity := by omega
                    simp [h2, h3]
                  · simp [h2, hcmp]
            · have hc' : ¬ (SEVERITY_RANK m.severity > rankInt (some b0)) := by
                simp only [rankInt]; exact_mod_cast hcmp
              rw [if_neg hc', selectHighest_go text cfg ms (some b0)]
              cases hf : firstMaxRank (ms.filter (fun x => !matchIsAllowlisted text cfg x)) with
              | none => simp [firstMaxRank, betterOf, hf, hcmp]
              | some c =>
                  simp only [firstMaxRank, betterOf, hf]
                  by_cases h2 : SEVERITY_RANK c.severity > SEVERITY_RANK m.severity
                  · simp [h2]
                  · have h4 : ¬ (SEVERITY_RANK c.severity > SEVERITY_RANK b0.severity) := by
                      omega
                    simp [h2, hcmp, h4]

/-- The selection of `detectSecret` is the first maximal-severity
non-allowlisted candidate. -/
theorem selectHighest_eq (text : Str) (cfg : Config) (ms : List SecretMatch) :
    (selectHighest text cfg ms).1 =
      firstMaxRank (ms.filter (fun m => !matchIsAllowlisted text cfg m)) := by
  have h := selectHighest_go text cfg ms none
  have hinit : ((none : Option SecretMatch), (-1 : Int)) = (none, rankInt none) := rfl
  rw [selectHighest, hinit, h]
  cases firstMaxRank (ms.filter (fun m => !matchIsAllowlisted text cfg m)) <;> rfl

/-- The first maximum exists exactly on non-empty lists. -/
theorem firstMaxRank_none_eq {l : List SecretMatch} :
    firstMaxRank l = none ↔ l = [] := by
  cases l with
  | nil => simp [firstMaxRank]
  | cons a rest =>
      simp only [firstMaxRank]
      constructor
      · intro h
        cases hf : firstMaxRank rest with
        | none => rw [hf] at h; simp [betterOf] at h
        | some b =>
            rw [hf] at h
            simp only [betterOf] at h
            split at h <;> simp_all
      · intro h; simp at h

/-- A selected first-maximum is a member of the list. -/
theorem firstMaxRank_mem : ∀ {l : List SecretMatch} {m : SecretMatch},
    firstMaxRank l = some m → m ∈ l
  | [], m => by intro h; simp [firstMaxRank] at h
  | a :: rest, m => by
      intro h
      simp only [firstMaxRank] at h
      cases hf : firstMaxRank rest with
      | none =>
          rw [hf] at h
          simp only [betterOf, Option.some.injEq] at h
          simp [← h]
      | some b =>
          rw [hf] at h
          simp only [betterOf] at h
          by_cases hc : SEVERITY_RANK b.severity > SEVERITY_RANK a.severity
          · rw [if_pos hc] at h
            obtain rfl : b = m := by simpa using h
            exact List.mem_cons_of_mem _ (firstMaxRank_mem hf)
          · rw [if_neg hc] at h
            obtain rfl : a = m := by simpa using h
            simp

/-- A selected first-maximum has maximal severity rank. -/
theorem firstMaxRank_le : ∀ {l : List SecretMatch} {m : SecretMatch},
    firstMaxRank l = some m →
      ∀ x ∈ l, SEVERITY_RANK x.severity ≤ SEVERITY_RANK m.severity
  | [], m => by intro h; simp [firstMaxRank] at h
  | a :: rest, m => by
      intro h x hx
      simp only [firstMaxRank] at h
      cases hf : firstMaxRank rest with
      | none =>
          rw [hf] at h
          simp only [betterOf, Option.some.injEq] at h
          subst h
          rcases List.mem_cons.mp hx with rfl | hx'
          · omega
          · rw [firstMaxRank_none_eq.mp hf] at hx'
            simp at hx'
      | some b =>
          rw [hf] at h
          simp only [betterOf] at h
          by_cases hc : SEVERITY_RANK b.severity > SEVERITY_RANK a.severity
          · rw [if_pos hc] at h
            obtain rfl : b = m := by simpa using h
            rcases List.mem_cons.mp hx with rfl | hx'
            · omega
            · exact firstMaxRank_le hf x hx'
          · rw [if_neg hc] at h
            obtain rfl : a = m := by simpa using h
            rcases List.mem_cons.mp hx with rfl | hx'
            · omega
            · have := firstMaxRank_le hf x hx'
              omega

/-- The selected first-maximum splits the list into a strictly
lower-ranked prefix and a suffix. -/
theorem firstMaxRank_first : ∀ {l : List SecretMatch} {m : SecretMatch},
    firstMaxRank l = some m →
      ∃ l1 l2, l = l1 ++ m :: l2 ∧
        ∀ x ∈ l1, SEVERITY_RANK x.severity < SEVERITY_RANK m.severity
  | [], m => by intro h; simp [firstMaxRank] at h
  | a :: rest, m => by
      intro h
      simp only [firstMaxRank] at h
      cases hf : firstMaxRank rest with
      | none =>
          rw [hf] at h
          simp only [betterOf, Option.some.injEq] at h
          subst h
          exact ⟨[], rest, rfl, by simp⟩
      | some b =>
          rw [hf] at h
          simp only [betterOf] at h
          by_cases hc : SEVERITY_RANK b.severity > SEVERITY_RANK a.severity
          · rw [if_pos hc] at h
            obtain rfl : b = m := by simpa using h
            obtain ⟨l1, l2, hsplit, hlt⟩ := firstMaxRank_first hf
            refine ⟨a :: l1, l2, by simp [hsplit], ?_⟩
            intro x hx
            rcases List.mem_cons.mp hx with rfl | hx'
            · omega
            · exact hlt x hx'
          · rw [if_neg hc] at h
            obtain rfl : a = m := by simpa using h
            exact ⟨[], rest, rfl, by simp⟩

end ClawGuardian

namespace ClawGuardian

/-- A successful `detectSecret` reports exactly the match chosen by the
selection loop. -/
theorem detectSecret_match (text : Str) (cfg : Config) (r : MatchResult)
    (h : detectSecret text cfg = some r) :
    (selectHighest text cfg (detectAll text (buildPatterns cfg))).1 = some r.«match» := by
  simp only [detectSecret] at h
  split at h
  · simp at h
  · cases hs : (selectHighest text cfg (detectAll text (buildPatterns cfg))).1 with
    | none => rw [hs] at h; simp at h
    | some hm =>
        rw [hs] at h
        dsimp only at h
        split at h <;> (simp only [Option.some.injEq] at h; rw [← h])

/-- C3: a candidate whose matched substring matches any allowlist
text-pattern is excluded from `detectSecret`'s selection entirely: a
reported worst match is never allowlisted, and if every candidate is
allowlisted `detectSecret` returns none. -/
theorem detectSecret_allowlist_exclusion :
    (∀ (text : Str) (cfg : Config) (r : MatchResult),
      detectSecret text cfg = some r → matchIsAllowlisted text cfg r.«match» = false) ∧
    (∀ (text : Str) (cfg : Config),
      (∀ m ∈ detectAll text (buildPatterns cfg), matchIsAllowlisted text cfg m = true) →
      detectSecret text cfg = none) := by
  constructor
  · intro text cfg r h
    have hsel := detectSecret_match text cfg r h
    rw [selectHighest_eq] at hsel
    have hmem := firstMaxRank_mem hsel
    have := (List.mem_filter.mp hmem).2
    revert this
    cases matchIsAllowlisted text cfg r.«match» <;> simp
  · intro text cfg hall
    by_contra hne
    obtain ⟨r, hr⟩ : ∃ r, detectSecret text cfg = some r := by
      cases hd : detectSecret text cfg with
      | none => exact absurd hd hne
      | some r => exact ⟨r, rfl⟩
    have hsel := detectSecret_match text cfg r hr
    rw [selectHighest_eq] at hsel
    have hmem := firstMaxRank_mem hsel
    have h1 := (List.mem_filter.mp hmem).2
    have h2 := hall r.«match» (List.mem_filter.mp hmem).1
    rw [h2] at h1
    simp at h1

/-- C3 witness: with allowlist pattern `sk-test-.*`, the text
`key sk-test-allowlisted-value` has exactly one candidate match
(`api_key_sk`), every candidate is allowlisted, and `detectSecret`
returns none. -/
theorem detectSecret_allowlist_exclusion_witness :
    (detectAll "key sk-test-allowlisted-value".data (buildPatterns cfgApi)).length = 1 ∧
    detectSecret "key sk-test-allowlisted-value".data cfgApi = none :=
  ⟨rfl, detectSecret_allowlist_exclusion.2 _ _ (by decide)⟩

/-- C4: among the non-allowlisted candidates, `detectSecret` reports
the first match of strictly maximal severity rank under
critical > high > medium > low: every candidate ranks at most the
reported one, and every candidate listed before it (candidates are
listed in the registration order API keys → cloud credentials → tokens
→ private keys → PII → custom, per rule) ranks strictly below it.  The
concrete instances show a later-registered higher-severity custom rule
beating an earlier one, and the earliest-registered rule winning a
severity tie even though its match occurs later in the text. -/
theorem detectSecret_severity_selection :
    (∀ (text : Str) (cfg : Config) (r : MatchResult),
      detectSecret text cfg = some r →
      ∃ l1 l2,
        (detectAll text (buildPatterns cfg)).filter
            (fun m => !matchIsAllowlisted text cfg m) = l1 ++ r.«match» :: l2 ∧
        (∀ x ∈ l1, SEVERITY_RANK x.severity < SEVERITY_RANK r.«match».severity) ∧
        (∀ x ∈ (detectAll text (buildPatterns cfg)).filter
            (fun m => !matchIsAllowlisted text cfg m),
          SEVERITY_RANK x.severity ≤ SEVERITY_RANK r.«match».severity)) ∧
    (∀ cfg : Config, buildPatterns cfg =
      (if cfg.secrets.enabled then
         (if cfg.secrets.categories.apiKeys then specsWith .secrets API_KEY_PATTERNS else []) ++
         (if cfg.secrets.categories.cloudCredentials then
            specsWith .secrets CLOUD_CREDENTIAL_PATTERNS else []) ++
         (if cfg.secrets.categories.tokens then specsWith .secrets TOKEN_PATTERNS else []) ++
         (if cfg.secrets.categories.privateKeys then
            [⟨"pem_private_key".data, pemPrivateKeyRE, none, .critical, .secrets⟩] else [])
       else []) ++
      (if cfg.pii.enabled then
         specsWith .pii (getPiiPatterns cfg.pii.categories.ssn cfg.pii.categories.creditCard
           cfg.pii.categories.phone cfg.pii.categories.email)
       else []) ++
      customPatternRules cfg.customPatterns) ∧
    detectSecret "AAA_1234 BBB_5678".data cfgTwoSev =
      some ⟨⟨"custom_beta".data, 9, 8, .high, .custom⟩, .redact⟩ ∧
    detectSecret "DDD_1111 GGG_2222".data cfgTwoEq =
      some ⟨⟨"custom_gamma".data, 9, 8, .high, .custom⟩, .redact⟩ := by
  refine ⟨?_, fun _ => rfl, by decide, by decide⟩
  intro text cfg r h
  have hsel := detectSecret_match text cfg r h
  rw [selectHighest_eq] at hsel
  obtain ⟨l1, l2, hsplit, hlt⟩ := firstMaxRank_first hsel
  exact ⟨l1, l2, hsplit, hlt, firstMaxRank_le hsel⟩

/-- C4 witness: the general selection property instantiated on the
equal-severity example, where the earliest-registered rule's match (at
text position 9) is reported ahead of the later-registered rule's
earlier match. -/
theorem detectSecret_severity_selection_witness :
    ∃ l1 l2,
      (detectAll "DDD_1111 GGG_2222".data (buildPatterns cfgTwoEq)).filter
          (fun m => !matchIsAllowlisted "DDD_1111 GGG_2222".data cfgTwoEq m) =
        l1 ++ (⟨"custom_gamma".data, 9, 8, .high, .custom⟩ : SecretMatch) :: l2 ∧
      (∀ x ∈ l1, SEVERITY_RANK x.severity <
        SEVERITY_RANK (Severity.high)) ∧
      (∀ x ∈ (detectAll "DDD_1111 GGG_2222".data (buildPatterns cfgTwoEq)).filter
          (fun m => !matchIsAllowlisted "DDD_1111 GGG_2222".data cfgTwoEq m),
        SEVERITY_RANK x.severity ≤ SEVERITY_RANK (Severity.high)) :=
  detectSecret_severity_selection.1 "DDD_1111 GGG_2222".data cfgTwoEq
    ⟨⟨"custom_gamma".data, 9, 8, .high, .custom⟩, .redact⟩ (by decide)

end ClawGuardian

namespace ClawGuardian

/-- C9: a custom pattern whose regex source does not compile is
silently dropped by `buildPatterns` — the built rule set with the
invalid pattern present equals the rule set without it, so no error
surfaces and detection proceeds over the remaining patterns. -/
theorem buildPatterns_invalid_custom_dropped :
    ∀ (cfg : Config) (pre post : List CustomPattern) (p : CustomPattern),
      compileRegex p.pattern true = none →
      buildPatterns { cfg with customPatterns := pre ++ p :: post } =
      buildPatterns { cfg with customPatterns := pre ++ post } := by
  intro cfg pre post p h
  simp only [buildPatterns, customPatternRules]
  congr 1
  rw [List.filterMap_append, List.filterMap_append, List.filterMap_cons, h]
  rfl

/-- C9 witness: the test-suite's invalid source `[invalid(regex` fails
to compile, and prepending it to a config's custom patterns leaves the
built rule set unchanged. -/
theorem buildPatterns_invalid_custom_dropped_witness :
    compileRegex "[invalid(regex".data true = none ∧
    buildPatterns { cfgTok with customPatterns :=
        (⟨"bad".data, "[invalid(regex".data, none, none⟩ : CustomPattern) ::
          cfgTok.customPatterns } = buildPatterns cfgTok := by
  refine ⟨rfl, ?_⟩
  have h := buildPatterns_invalid_custom_dropped cfgTok [] cfgTok.customPatterns
    ⟨"bad".data, "[invalid(regex".data, none, none⟩ rfl
  simpa using h

/-- Nesting depth of an entry's value is bounded by the entry list's
depth. -/
theorem jsonDepth_entry_le : ∀ (kvs : List (Str × Json)) (kv : Str × Json), kv ∈ kvs →
    jsonDepth kv.2 ≤ jsonDepthEntries kvs
  | [], kv => by intro h; simp at h
  | kv0 :: rest, kv => by
      intro h
      rcases List.mem_cons.mp h with rfl | h'
      · simp [jsonDepthEntries, Nat.le_max_left]
      · have := jsonDepth_entry_le rest kv h'
        simp only [jsonDepthEntries]
        omega

/-- `redactParamsAux` is fuel-indifferent above the nesting depth. -/
theorem redactParamsAux_fuel (fuel : Nat) :
    ∀ (params : Json) (cfg : Config), jsonDepth params ≤ fuel →
      redactParamsAux fuel params cfg = redactParams params cfg := by
  induction fuel using Nat.strong_induction_on with
  | _ fuel ih =>
    intro params cfg hle
    cases params with
    | obj kvs =>
        have h1 : 1 + jsonDepthEntries kvs ≤ fuel := by
          simpa [jsonDepth] using hle
        obtain ⟨f, rfl⟩ : ∃ f, fuel = f + 1 := by
          cases fuel with
          | zero => omega
          | succ f => exact ⟨f, rfl⟩
        rw [redactParams]
        have hdep : jsonDepth (Json.obj kvs) = jsonDepthEntries kvs + 1 := by
          simp [jsonDepth]; omega
        rw [hdep]
        simp only [redactParamsAux]
        congr 1
        apply List.map_congr_left
        intro kv hkv
        congr 1
        cases hv : kv.2 with
        | obj kvs2 =>
            have hd2 : jsonDepth (Json.obj kvs2) ≤ jsonDepthEntries kvs := by
              have := jsonDepth_entry_le kvs kv hkv
              rw [hv] at this
              exact this
            dsimp only
            rw [ih f (by omega) _ cfg (by omega),
              ih (jsonDepthEntries kvs) (by omega) _ cfg (by omega)]
        | null => rfl
        | undef => rfl
        | bool b => rfl
        | num n => rfl
        | str s => rfl
        | arr xs => rfl
    | null =>
        obtain ⟨f, rfl⟩ : ∃ f, fuel = f + 1 := by
          cases fuel with
          | zero => simp [jsonDepth] at hle
          | succ f => exact ⟨f, rfl⟩
        rfl
    | undef =>
        obtain ⟨f, rfl⟩ : ∃ f, fuel = f + 1 := by
          cases fuel with
          | zero => simp [jsonDepth] at hle
          | succ f => exact ⟨f, rfl⟩
        rfl
    | bool b =>
        obtain ⟨f, rfl⟩ : ∃ f, fuel = f + 1 := by
          cases fuel with
          | zero => simp [jsonDepth] at hle
          | succ f => exact ⟨f, rfl⟩
        rfl
    | num n =>
        obtain ⟨f, rfl⟩ : ∃ f, fuel = f + 1 := by
          cases fuel with
          | zero => simp [jsonDepth] at hle
          | succ f => exact ⟨f, rfl⟩
        rfl
    | str s =>
        obtain ⟨f, rfl⟩ : ∃ f, fuel = f + 1 := by
          cases fuel with
          | zero => simp [jsonDepth] at hle
          | succ f => exact ⟨f, rfl⟩
        rfl
    | arr xs =>
        obtain ⟨f, rfl⟩ : ∃ f, fuel = f + 1 := by
          cases fuel with
          | zero => simp [jsonDepth] at hle
          | succ f => exact ⟨f, rfl⟩
        rfl

end ClawGuardian

namespace ClawGuardian

/-- C7 counterexample: a root-level array is returned unchanged by
`redactParams`; its string element is not rewritten via `redactText`,
although `redactText` would redact it (so the claim's "redacts each
string element of each array" fails at the root). -/
theorem redactParams_array_root_counterexample :
    redactParams (.arr [.str "KEYA1234".data]) cfgKeya = .arr [.str "KEYA1234".data] ∧
    redactText "KEYA1234".data cfgKeya = "[REDACTED]".data ∧
    "[REDACTED]".data ≠ "KEYA1234".data :=
  ⟨rfl, rfl, by decide⟩

/-- C7 amended: for a mapping root, `redactParams` rewrites each string
value via `redactText`, recurses into nested mappings, redacts the
string elements of array values (passing other elements through), and
passes all other scalar values through unchanged; a `null`/`undefined`
root and every scalar root collapse to an empty mapping, while an array
root is returned unchanged (its elements are not redacted). -/
theorem redactParams_characterization :
    (∀ (cfg : Config) (kvs : List (Str × Json)),
      redactParams (.obj kvs) cfg =
        .obj (kvs.map (fun kv => (kv.1, redactValueSpec cfg kv.2)))) ∧
    (∀ cfg : Config, redactParams .null cfg = .obj []) ∧
    (∀ cfg : Config, redactParams .undef cfg = .obj []) ∧
    (∀ (cfg : Config) (xs : List Json), redactParams (.arr xs) cfg = .arr xs) ∧
    (∀ (cfg : Config) (b : Bool), redactParams (.bool b) cfg = .obj []) ∧
    (∀ (cfg : Config) (n : Int), redactParams (.num n) cfg = .obj []) ∧
    (∀ (cfg : Config) (s : Str), redactParams (.str s) cfg = .obj []) := by
  refine ⟨?_, fun _ => rfl, fun _ => rfl, fun _ _ => rfl, fun _ _ => rfl,
    fun _ _ => rfl, fun _ _ => rfl⟩
  intro cfg kvs
  have hdep : jsonDepth (Json.obj kvs) = jsonDepthEntries kvs + 1 := by
    simp [jsonDepth]; omega
  rw [redactParams, hdep]
  simp only [redactParamsAux]
  congr 1
  apply List.map_congr_left
  intro kv hkv
  congr 1
  cases hv : kv.2 with
  | obj kvs2 =>
      have hd2 : jsonDepth (Json.obj kvs2) ≤ jsonDepthEntries kvs := by
        have := jsonDepth_entry_le kvs kv hkv
        rw [hv] at this
        exact this
      dsimp only [redactValueSpec]
      exact redactParamsAux_fuel (jsonDepthEntries kvs) _ cfg hd2
  | null => rfl
  | undef => rfl
  | bool b => rfl
  | num n => rfl
  | str s => rfl
  | arr xs => rfl

end ClawGuardian

namespace ClawGuardian

/-- A slice equal to `v` witnesses an occurrence of `v`. -/
theorem occursIn_of_slice (red v : Str) (idx b : Nat) (h : sliceJS red idx b = v) :
    occursIn v red = true := by
  by_cases hidx : idx ≤ red.length
  · unfold occursIn
    rw [List.any_eq_true]
    refine ⟨idx, List.mem_range.mpr (by omega), ?_⟩
    rw [decide_eq_true_iff]
    show sliceJS red idx (idx + v.length) = v
    unfold sliceJS at h ⊢
    have hn : idx + v.length - idx = v.length := by omega
    rw [hn]
    have hv : v.length ≤ b - idx := by
      rw [← h]
      exact List.length_take_le (b - idx) (red.drop idx)
    calc (red.drop idx).take v.length
        = ((red.drop idx).take (b - idx)).take v.length := by
          rw [List.take_take, Nat.min_eq_left hv]
      _ = v.take v.length := by rw [h]
      _ = v := List.take_length v
  · have hdrop : red.drop idx = [] := List.drop_eq_nil_of_le (by omega)
    have hv : v = [] := by
      rw [← h]
      unfold sliceJS
      rw [hdrop]
      simp
    subst hv
    unfold occursIn
    rw [List.any_eq_true]
    exact ⟨0, List.mem_range.mpr (by omega), by simp [sliceJS]⟩

/-- C6 amended: when the originally detected secret value does not
occur in the redacted output, re-scanning that output never reports a
match whose text equals the value; the concrete round trip
detect → redact → detect on a token pattern yields none.  (The
restriction is necessary: the placeholder text can itself recreate a
detected value — see the counterexample — and for multi-line key blocks
only a prefix and suffix are preserved by design.) -/
theorem redact_roundtrip :
    (∀ (text : Str) (cfg : Config) (r : MatchResult),
      detectSecret text cfg = some r →
      occursIn (sliceJS text r.«match».index (r.«match».index + r.«match».length))
        (redactText text cfg) = false →
      ∀ r2 : MatchResult, detectSecret (redactText text cfg) cfg = some r2 →
        sliceJS (redactText text cfg) r2.«match».index
            (r2.«match».index + r2.«match».length) ≠
          sliceJS text r.«match».index (r.«match».index + r.«match».length)) ∧
    detectSecret "token ghx_abcd1234 end".data cfgTok =
      some ⟨⟨"custom_token".data, 6, 12, .high, .custom⟩, .redact⟩ ∧
    redactText "token ghx_abcd1234 end".data cfgTok = "token [REDACTED] end".data ∧
    detectSecret (redactText "token ghx_abcd1234 end".data cfgTok) cfgTok = none := by
  refine ⟨?_, by decide, by decide, by decide⟩
  intro text cfg r _ hocc r2 _ heq
  have htrue := occursIn_of_slice (redactText text cfg) _
    r2.«match».index (r2.«match».index + r2.«match».length) heq
  rw [htrue] at hocc
  exact absurd hocc (by simp)

/-- C6 witness: the general round-trip bound applied to a two-pattern
config whose redacted output still contains a (different) match: the
re-scan's reported text differs from the originally detected value. -/
theorem redact_roundtrip_witness :
    sliceJS (redactText "token ghx_abcd1234 end".data cfgTok2) 8 16 ≠
      sliceJS "token ghx_abcd1234 end".data 6 18 :=
  redact_roundtrip.1 "token ghx_abcd1234 end".data cfgTok2
    ⟨⟨"custom_token".data, 6, 12, .high, .custom⟩, .redact⟩ (by decide) (by decide)
    ⟨⟨"custom_marker".data, 8, 8, .high, .custom⟩, .redact⟩ (by decide)

/-- C6 counterexample: with custom pattern `RED` on text `RED`, the
redaction placeholder itself recreates the detected value — the re-scan
of the redacted output reports a match whose text equals the original
secret value, so the round-trip claim fails as universally stated. -/
theorem redact_roundtrip_counterexample :
    detectSecret "RED".data cfgRed =
      some ⟨⟨"custom_red".data, 0, 3, .high, .custom⟩, .redact⟩ ∧
    redactText "RED".data cfgRed = "[REDACTED]".data ∧
    detectSecret "[REDACTED]".data cfgRed =
      some ⟨⟨"custom_red".data, 1, 3, .high, .custom⟩, .redact⟩ ∧
    sliceJS "[REDACTED]".data 1 4 = sliceJS "RED".data 0 3 :=
  ⟨by decide, by decide, by decide, by decide⟩

end ClawGuardian

namespace ClawGuardian

/-- C10: every match produced by the dangerous-path argument check has
category `file_delete` and carries the matched argument as its pattern;
and whenever the earlier sub-detectors of `detectDestructive` report
nothing, that dangerous-path match is returned as the verdict regardless
of the issuing command's semantics — concretely, `cat /etc/passwd` is
reported as a critical `file_delete` although it deletes nothing. -/
theorem hasDangerousPath_file_delete :
    (∀ (args : List Str) (m : DestructiveMatch),
      hasDangerousPath args = some m →
      m.category = .fileDelete ∧ m.pattern ∈ args) ∧
    (∀ (toolName cmdStr : Str) (rest : List (Str × Json)) (m : DestructiveMatch),
      isRemoteCodeExecution cmdStr = none →
      isFileTruncation cmdStr = none →
      checkPrivilegeEscalation
        (normalizeCmdName ((splitWS cmdStr).headD []) (lowerStr toolName))
        ((splitWS cmdStr).drop 1) = none →
      isDestructiveRm ((splitWS cmdStr).drop 1) = none →
      isDestructiveGit ((splitWS cmdStr).drop 1) = none →
      isDestructiveFind ((splitWS cmdStr).drop 1) = none →
      isDestructiveXargs ((splitWS cmdStr).drop 1) = none →
      isDestructiveSystem
        (normalizeCmdName ((splitWS cmdStr).headD []) (lowerStr toolName))
        ((splitWS cmdStr).drop 1) = none →
      hasDangerousPath ((splitWS cmdStr).drop 1) = some m →
      detectDestructive toolName (("command".data, Json.str cmdStr) :: rest) = some m) ∧
    detectDestructive "exec".data [("command".data, .str "cat /etc/passwd".data)] =
      some ⟨.fileDelete, "Operation on System config directory".data, .critical,
        "/etc/passwd".data⟩ := by
  refine ⟨?_, ?_, by decide⟩
  · intro args m h
    unfold hasDangerousPath at h
    obtain ⟨arg, hmem, harg⟩ := List.exists_of_findSome?_eq_some h
    obtain ⟨e, _, he⟩ := List.exists_of_findSome?_eq_some harg
    split at he
    · simp only [Option.some.injEq] at he
      rw [← he]
      exact ⟨rfl, hmem⟩
    · exact Option.noConfusion he
  · intro toolName cmdStr rest m hrce htrunc hpe hrm hgit hfind hxargs hsys hpath
    have hcmd : jlookup (("command".data, Json.str cmdStr) :: rest) "command".data =
        some (.str cmdStr) := by
      simp [jlookup, List.find?]
    have h2 : (if (!List.isEmpty cmdStr) = true then
        match isRemoteCodeExecution cmdStr with
        | some m => some m
        | none => isFileTruncation cmdStr
      else none) = none := by
      split
      · rw [hrce, htrunc]
      · rfl
    have hrm2 : ∀ (c : Prop) (inst : Decidable c),
        (if c then isDestructiveRm ((splitWS cmdStr).drop 1) else none) = none := by
      intro c inst
      split
      · exact hrm
      · rfl
    have hgit2 : ∀ (c : Prop) (inst : Decidable c),
        (if c then isDestructiveGit ((splitWS cmdStr).drop 1) else none) = none := by
      intro c inst
      split
      · exact hgit
      · rfl
    have hfind2 : ∀ (c : Prop) (inst : Decidable c),
        (if c then isDestructiveFind ((splitWS cmdStr).drop 1) else none) = none := by
      intro c inst
      split
      · exact hfind
      · rfl
    have hxargs2 : ∀ (c : Prop) (inst : Decidable c),
        (if c then isDestructiveXargs ((splitWS cmdStr).drop 1) else none) = none := by
      intro c inst
      split
      · exact hxargs
      · rfl
    simp only [detectDestructive, extractCommand, hcmd]
    simp only [Bool.false_eq_true, if_false, h2, hpe, hrm2, hgit2, hfind2, hxargs2, hsys,
      hpath]

/-- Witness for the C10 theorem at `cat /etc/passwd`: the dangerous-path
check fires on the argument `/etc/passwd` and both conjuncts are
instantiated there. -/
theorem hasDangerousPath_file_delete_witness :
    hasDangerousPath ["/etc/passwd".data] =
      some ⟨.fileDelete, "Operation on System config directory".data, .critical,
        "/etc/passwd".data⟩ ∧
    (DestructiveMatch.mk .fileDelete "Operation on System config directory".data .critical
        "/etc/passwd".data).category = .fileDelete ∧
    "/etc/passwd".data ∈ ["/etc/passwd".data] ∧
    detectDestructive "exec".data [("command".data, .str "cat /etc/passwd".data)] =
      some ⟨.fileDelete, "Operation on System config directory".data, .critical,
        "/etc/passwd".data⟩ :=
  ⟨by decide,
   (hasDangerousPath_file_delete.1 ["/etc/passwd".data]
     ⟨.fileDelete, "Operation on System config directory".data, .critical,
       "/etc/passwd".data⟩ (by decide)).1,
   (hasDangerousPath_file_delete.1 ["/etc/passwd".data]
     ⟨.fileDelete, "Operation on System config directory".data, .critical,
       "/etc/passwd".data⟩ (by decide)).2,
   hasDangerousPath_file_delete.2.1 "exec".data "cat /etc/passwd".data []
     ⟨.fileDelete, "Operation on System config directory".data, .critical,
       "/etc/passwd".data⟩
     (by decide) (by decide) (by decide) (by decide) (by decide) (by decide) (by decide)
     (by decide) (by decide)⟩
end ClawGuardian

namespace ClawGuardian

/-- C1 counterexample: `sudo git branch -d feature` is classified by the
privilege-escalation unwrap via the inner git detector, but the returned
severity is the inner `medium`, not `critical`: the git branch of the
unwrap prefixes reason and pattern yet does not escalate severity. -/
theorem detectDestructive_sudo_git_counterexample :
    detectDestructive "exec".data
        [("command".data, .str "sudo git branch -d feature".data)] =
      some ⟨.gitDestructive, "sudo git branch delete removes branch".data, .medium,
        "sudo git branch -d".data⟩ ∧
    Severity.medium ≠ Severity.critical :=
  ⟨by decide, by decide⟩

/-- C1 amended: in the privilege-escalation unwrap of `detectDestructive`,
an inner command caught by the rm, find, system or dangerous-path
detectors is returned with severity escalated to `critical` and reason and
pattern prefixed with `"sudo "`; an inner command caught by the git
detector keeps its inner severity (only reason and pattern are prefixed).
The final conjunct links the dispatch into `detectDestructive`. -/
theorem detectDestructive_privilege_escalation :
    (∀ (pe : PrivEscResult) (m : DestructiveMatch),
      (lowerStr ((splitOnChar '/' pe.innerCommand).getLast?.getD []) = "rm".data ∨
       lowerStr ((splitOnChar '/' pe.innerCommand).getLast?.getD []) = "del".data ∨
       lowerStr ((splitOnChar '/' pe.innerCommand).getLast?.getD []) = "remove".data) →
      isDestructiveRm pe.innerArgs = some m →
      privEscInnerDispatch pe =
        some ⟨m.category, "sudo ".data ++ m.reason, .critical,
          "sudo ".data ++ m.pattern⟩) ∧
    (∀ (pe : PrivEscResult) (m : DestructiveMatch),
      lowerStr ((splitOnChar '/' pe.innerCommand).getLast?.getD []) = "git".data →
      isDestructiveGit pe.innerArgs = some m →
      privEscInnerDispatch pe =
        some ⟨m.category, "sudo ".data ++ m.reason, m.severity,
          "sudo ".data ++ m.pattern⟩) ∧
    (∀ (pe : PrivEscResult) (m : DestructiveMatch),
      lowerStr ((splitOnChar '/' pe.innerCommand).getLast?.getD []) = "find".data →
      isDestructiveFind pe.innerArgs = some m →
      privEscInnerDispatch pe =
        some ⟨m.category, "sudo ".data ++ m.reason, .critical,
          "sudo ".data ++ m.pattern⟩) ∧
    (∀ (pe : PrivEscResult) (m : DestructiveMatch),
      isDestructiveRm pe.innerArgs = none →
      isDestructiveGit pe.innerArgs = none →
      isDestructiveFind pe.innerArgs = none →
      isDestructiveSystem (lowerStr ((splitOnChar '/' pe.innerCommand).getLast?.getD []))
        pe.innerArgs = some m →
      privEscInnerDispatch pe =
        some ⟨m.category, "sudo ".data ++ m.reason, .critical,
          "sudo ".data ++ m.pattern⟩) ∧
    (∀ (pe : PrivEscResult) (m : DestructiveMatch),
      isDestructiveRm pe.innerArgs = none →
      isDestructiveGit pe.innerArgs = none →
      isDestructiveFind pe.innerArgs = none →
      isDestructiveSystem (lowerStr ((splitOnChar '/' pe.innerCommand).getLast?.getD []))
        pe.innerArgs = none →
      hasDangerousPath pe.innerArgs = some m →
      privEscInnerDispatch pe =
        some ⟨m.category, "sudo ".data ++ m.reason, .critical,
          "sudo ".data ++ m.pattern⟩) ∧
    (∀ (toolName cmdStr : Str) (rest : List (Str × Json)) (pe : PrivEscResult)
        (m : DestructiveMatch),
      isRemoteCodeExecution cmdStr = none →
      isFileTruncation cmdStr = none →
      checkPrivilegeEscalation
        (normalizeCmdName ((splitWS cmdStr).headD []) (lowerStr toolName))
        ((splitWS cmdStr).drop 1) = some pe →
      privEscInnerDispatch pe = some m →
      detectDestructive toolName (("command".data, Json.str cmdStr) :: rest) = some m) := by
  refine ⟨?_, ?_, ?_, ?_, ?_, ?_⟩
  · intro pe m hname hrm
    have hb : (decide
          (lowerStr ((splitOnChar '/' pe.innerCommand).getLast?.getD []) = "rm".data) ||
        decide (lowerStr ((splitOnChar '/' pe.innerCommand).getLast?.getD []) = "del".data) ||
        decide
          (lowerStr ((splitOnChar '/' pe.innerCommand).getLast?.getD []) = "remove".data)) =
        true := by
      rcases hname with h | h | h <;> simp [h]
    simp only [privEscInnerDispatch, hb, if_true, hrm, Option.map_some']
  · intro pe m hname hgit
    have hb : (decide
          (lowerStr ((splitOnChar '/' pe.innerCommand).getLast?.getD []) = "rm".data) ||
        decide (lowerStr ((splitOnChar '/' pe.innerCommand).getLast?.getD []) = "del".data) ||
        decide
          (lowerStr ((splitOnChar '/' pe.innerCommand).getLast?.getD []) = "remove".data)) =
        false := by
      rw [hname]
      decide
    simp only [privEscInnerDispatch, hb, Bool.false_eq_true, if_false, hname, if_pos rfl,
      hgit, Option.map_some']
    rfl
  · intro pe m hname hfind
    simp only [privEscInnerDispatch, hname, hfind, Option.map_some']
    rfl
  · intro pe m hrm0 hgit0 hfind0 hsys
    simp only [privEscInnerDispatch, hrm0, hgit0, hfind0, Option.map_none', ite_self, hsys]
  · intro pe m hrm0 hgit0 hfind0 hsys0 hpath
    simp only [privEscInnerDispatch, hrm0, hgit0, hfind0, Option.map_none', ite_self, hsys0,
      hpath]
  · intro toolName cmdStr rest pe m hrce htrunc hpe hdisp
    have hcmd : jlookup (("command".data, Json.str cmdStr) :: rest) "command".data =
        some (.str cmdStr) := by
      simp [jlookup, List.find?]
    have h2 : (if (!List.isEmpty cmdStr) = true then
        match isRemoteCodeExecution cmdStr with
        | some m => some m
        | none => isFileTruncation cmdStr
      else none) = none := by
      split
      · rw [hrce, htrunc]
      · rfl
    simp only [detectDestructive, extractCommand, hcmd]
    simp only [Bool.false_eq_true, if_false, h2, hpe, hdisp]

/-- Witness for the C1 theorem: each branch of the privilege-escalation
dispatch instantiated at a concrete unwrapped command (`sudo rm -rf
/tmp/foo`, `sudo git branch -d feature`, `sudo find /tmp -delete`,
`sudo shutdown`, `sudo cat /etc/passwd`), plus the link into
`detectDestructive`. -/
theorem detectDestructive_privilege_escalation_witness :
    privEscInnerDispatch
        ⟨⟨.privilegeEscalation, "sudo runs command with elevated privileges".data, .high,
          "sudo".data⟩, "rm".data, ["-rf".data, "/tmp/foo".data]⟩ =
      some ⟨.fileDelete, "sudo Recursive force deletion (rm -rf)".data, .critical,
        "sudo rm -rf".data⟩ ∧
    privEscInnerDispatch
        ⟨⟨.privilegeEscalation, "sudo runs command with elevated privileges".data, .high,
          "sudo".data⟩, "git".data, ["branch".data, "-d".data, "feature".data]⟩ =
      some ⟨.gitDestructive, "sudo git branch delete removes branch".data, .medium,
        "sudo git branch -d".data⟩ ∧
    privEscInnerDispatch
        ⟨⟨.privilegeEscalation, "sudo runs command with elevated privileges".data, .high,
          "sudo".data⟩, "find".data, ["/tmp".data, "-delete".data]⟩ =
      some ⟨.fileDelete, "sudo find with -delete can remove many files".data, .critical,
        "sudo find -delete".data⟩ ∧
    privEscInnerDispatch
        ⟨⟨.privilegeEscalation, "sudo runs command with elevated privileges".data, .high,
          "sudo".data⟩, "shutdown".data, []⟩ =
      some ⟨.systemDestructive, "sudo shutdown will shut down or restart the system".data,
        .critical, "sudo shutdown".data⟩ ∧
    privEscInnerDispatch
        ⟨⟨.privilegeEscalation, "sudo runs command with elevated privileges".data, .high,
          "sudo".data⟩, "cat".data, ["/etc/passwd".data]⟩ =
      some ⟨.fileDelete, "sudo Operation on System config directory".data, .critical,
        "sudo /etc/passwd".data⟩ ∧
    detectDestructive "exec".data [("command".data, .str "sudo rm -rf /tmp/foo".data)] =
      some ⟨.fileDelete, "sudo Recursive force deletion (rm -rf)".data, .critical,
        "sudo rm -rf".data⟩ :=
  ⟨detectDestructive_privilege_escalation.1
      ⟨⟨.privilegeEscalation, "sudo runs command with elevated privileges".data, .high,
        "sudo".data⟩, "rm".data, ["-rf".data, "/tmp/foo".data]⟩
      ⟨.fileDelete, "Recursive force deletion (rm -rf)".data, .critical, "rm -rf".data⟩
      (Or.inl (by decide)) (by decide),
   detectDestructive_privilege_escalation.2.1
      ⟨⟨.privilegeEscalation, "sudo runs command with elevated privileges".data, .high,
        "sudo".data⟩, "git".data, ["branch".data, "-d".data, "feature".data]⟩
      ⟨.gitDestructive, "git branch delete removes branch".data, .medium,
        "git branch -d".data⟩
      (by decide) (by decide),
   detectDestructive_privilege_escalation.2.2.1
      ⟨⟨.privilegeEscalation, "sudo runs command with elevated privileges".data, .high,
        "sudo".data⟩, "find".data, ["/tmp".data, "-delete".data]⟩
      ⟨.fileDelete, "find with -delete can remove many files".data, .high,
        "find -delete".data⟩
      (by decide) (by decide),
   detectDestructive_privilege_escalation.2.2.2.1
      ⟨⟨.privilegeEscalation, "sudo runs command with elevated privileges".data, .high,
        "sudo".data⟩, "shutdown".data, []⟩
      ⟨.systemDestructive, "shutdown will shut down or restart the system".data, .critical,
        "shutdown".data⟩
      (by decide) (by decide) (by decide) (by decide),
   detectDestructive_privilege_escalation.2.2.2.2.1
      ⟨⟨.privilegeEscalation, "sudo runs command with elevated privileges".data, .high,
        "sudo".data⟩, "cat".data, ["/etc/passwd".data]⟩
      ⟨.fileDelete, "Operation on System config directory".data, .critical,
        "/etc/passwd".data⟩
      (by decide) (by decide) (by decide) (by decide) (by decide),
   detectDestructive_privilege_escalation.2.2.2.2.2
      "exec".data "sudo rm -rf /tmp/foo".data []
      ⟨⟨.privilegeEscalation, "sudo runs command with elevated privileges".data, .high,
        "sudo".data⟩, "rm".data, ["-rf".data, "/tmp/foo".data]⟩
      ⟨.fileDelete, "sudo Recursive force deletion (rm -rf)".data, .critical,
        "sudo rm -rf".data⟩
      (by decide) (by decide) (by decide) (by decide)⟩
end ClawGuardian

namespace ClawGuardian

theorem jlookup_map_value (kvs : List (Str × Json)) (f : Json → Json) (k : Str) :
    jlookup (kvs.map (fun kv => (kv.1, f kv.2))) k = (jlookup kvs k).map f := by
  unfold jlookup
  rw [List.find?_map]
  have hc : ((fun kv : Str × Json => decide (kv.1 = k)) ∘
      (fun kv : Str × Json => (kv.1, f kv.2))) =
      (fun kv : Str × Json => decide (kv.1 = k)) := rfl
  rw [hc]
  cases List.find? (fun kv : Str × Json => decide (kv.1 = k)) kvs <;> rfl

theorem hasConfirmFlag_objSet (l : List (Str × Json)) (k : Str) (v : Json)
    (hk : k ≠ "_clawguardian_confirm".data) :
    hasConfirmFlag (objSet (.obj l) k v) = hasConfirmFlag (.obj l) := by
  have hp : ((fun kv : Str × Json => decide (kv.1 = "_clawguardian_confirm".data)) ∘
      (fun kv : Str × Json => if kv.1 = k then (k, v) else kv)) =
      (fun kv : Str × Json => decide (kv.1 = "_clawguardian_confirm".data)) := by
    funext kv
    simp only [Function.comp]
    by_cases h : kv.1 = k
    · simp [h]
    · simp [h]
  have hfind : List.find?
      (fun kv : Str × Json => decide (kv.1 = "_clawguardian_confirm".data))
      (l.map (fun kv => if kv.1 = k then (k, v) else kv)) =
      Option.map (fun kv : Str × Json => if kv.1 = k then (k, v) else kv)
        (List.find? (fun kv : Str × Json => decide (kv.1 = "_clawguardian_confirm".data)) l) := by
    rw [List.find?_map, hp]
  have hos : objSet (.obj l) k v =
      if (List.find? (fun kv : Str × Json => decide (kv.1 = k)) l).isSome = true then
        Json.obj (l.map (fun kv => if kv.1 = k then (k, v) else kv))
      else Json.obj (l ++ [(k, v)]) := rfl
  rw [hos]
  split
  · simp only [hasConfirmFlag, jlookup, hfind]
    cases hf : List.find?
        (fun kv : Str × Json => decide (kv.1 = "_clawguardian_confirm".data)) l with
    | none => rfl
    | some e =>
        have he : e.1 = "_clawguardian_confirm".data := by
          simpa using List.find?_some hf
        have hek : ¬ e.1 = k := fun hh => hk (hh ▸ he)
        simp only [Option.map_some', if_neg hek]
  · simp only [hasConfirmFlag, jlookup, List.find?_append]
    have h1 : List.find? (fun kv : Str × Json => decide (kv.1 = "_clawguardian_confirm".data))
        [(k, v)] = none := by
      rw [List.find?_cons_of_neg _ (by simpa using hk), List.find?_nil]
    rw [h1, Option.or_none]

theorem hasConfirmFlag_strip (params : Json) :
    hasConfirmFlag (stripConfirmFlag params) = false := by
  cases params with
  | obj kvs =>
      simp only [stripConfirmFlag, hasConfirmFlag, jlookup]
      cases hf : List.find? (fun kv : Str × Json => decide (kv.1 = "_clawguardian_confirm".data))
          (kvs.filter (fun kv => kv.1 ≠ "_clawguardian_confirm".data)) with
      | none => rfl
      | some e =>
          have he := List.find?_some hf
          have hmem := List.mem_of_find?_eq_some hf
          have hne := List.of_mem_filter hmem
          simp only [decide_eq_true_eq] at he
          simp only [decide_not, Bool.not_eq_true', decide_eq_false_iff_not] at hne
          exact absurd he hne
  | null => rfl
  | undef => rfl
  | bool b => rfl
  | num n => rfl
  | str s => rfl
  | arr xs => rfl

theorem redactParamsAux_obj_shape (fuel : Nat) (kvs : List (Str × Json)) (cfg : Config) :
    ∃ l, redactParamsAux fuel (.obj kvs) cfg = .obj l := by
  cases fuel with
  | zero => exact ⟨[], rfl⟩
  | succ f => exact ⟨_, rfl⟩

theorem hasConfirmFlag_redactMap (cfg : Config) (fuel : Nat) (l : List (Str × Json)) :
    hasConfirmFlag (.obj (l.map (fun kv => (kv.1,
      match kv.2 with
      | .str s => .str (redactText s cfg)
      | .obj kvs2 => redactParamsAux fuel (.obj kvs2) cfg
      | .arr xs => .arr (xs.map (fun item =>
          match item with
          | .str s => .str (redactText s cfg)
          | other => other))
      | other => other)))) = hasConfirmFlag (.obj l) := by
  simp only [hasConfirmFlag, jlookup]
  induction l with
  | nil => rfl
  | cons kv rest ih =>
      by_cases h : kv.1 = "_clawguardian_confirm".data
      · rw [List.map_cons, List.find?_cons_of_pos _ (by simpa using h),
          List.find?_cons_of_pos _ (by simpa using h)]
        simp only [Option.map_some']
        cases hv : kv.2 with
        | obj kvs2 =>
            obtain ⟨l2, hl⟩ := redactParamsAux_obj_shape fuel kvs2 cfg
            dsimp only
            rw [hl]
        | str s => rfl
        | arr xs => rfl
        | bool b => cases b <;> rfl
        | num n => rfl
        | null => rfl
        | undef => rfl
      · rw [List.map_cons, List.find?_cons_of_neg _ (by simpa using h),
          List.find?_cons_of_neg _ (by simpa using h)]
        exact ih

theorem hasConfirmFlag_redactParams (cfg : Config) (params : Json) :
    hasConfirmFlag (redactParams params cfg) = hasConfirmFlag params := by
  cases params with
  | obj kvs =>
      have hd : jsonDepth (.obj kvs) = jsonDepthEntries kvs + 1 := by
        simp [jsonDepth, Nat.add_comm]
      unfold redactParams
      rw [hd]
      exact hasConfirmFlag_redactMap cfg (jsonDepthEntries kvs) kvs
  | null => rfl
  | undef => rfl
  | bool b => rfl
  | num n => rfl
  | str s => rfl
  | arr xs => rfl

/-- C2 counterexample: in the secrets agent-confirm path with the
confirmation flag present, the returned parameters are the redacted
object extended with `_clawguardian_confirmed` — the original
`_clawguardian_confirm: true` entry survives redaction and is NOT
stripped, so the claim that the flag is stripped on round 2 fails for
secret/PII detections. -/
theorem beforeToolCall_confirm_flag_counterexample :
    beforeToolCall cfgAgentSecret "mytool".data paramsSek none =
      .withParams (objSet (redactParams paramsSek cfgAgentSecret)
        "_clawguardian_confirmed".data (.str "custom_sek".data)) ∧
    hasConfirmFlag (objSet (redactParams paramsSek cfgAgentSecret)
        "_clawguardian_confirmed".data (.str "custom_sek".data)) = true :=
  ⟨rfl, rfl⟩

/-- C2 amended: for a destructive detection whose resolved action is
agent-confirm (or confirm on a tool other than exec/bash), the hook
blocks with the resubmission message when the flag is absent and
proceeds with the flag stripped when it is present.  For a secret/PII
detection with action agent-confirm (or confirm), the hook blocks when
the flag is absent; when it is present it proceeds with redacted
parameters tagged `_clawguardian_confirmed` — but there the original
confirmation flag is retained, not stripped. -/
theorem beforeToolCall_agent_confirm :
    (∀ (cfg : Config) (toolName : Str) (params : Json) (dm : DestructiveMatch),
      isAllowlisted cfg.allowlist toolName none = false →
      cfg.destructive.enabled = true →
      detectDestructive toolName (paramsEntries params) = some dm →
      categoryEnabled dm cfg.destructive.categories = true →
      (getActionForSeverity dm.severity cfg.destructive.toActionPolicy = .agentConfirm ∨
       (getActionForSeverity dm.severity cfg.destructive.toActionPolicy = .confirm ∧
        ¬(toolName = "exec".data ∨ toolName = "bash".data))) →
      (hasConfirmFlag params = false →
        beforeToolCall cfg toolName params none =
          .block ("ClawGuardian: ".data ++ dm.reason ++
            ". To proceed, re-run with `_clawguardian_confirm: true` in params.".data)) ∧
      (hasConfirmFlag params = true →
        beforeToolCall cfg toolName params none = .withParams (stripConfirmFlag params) ∧
        hasConfirmFlag (stripConfirmFlag params) = false)) ∧
    (∀ (cfg : Config) (toolName : Str) (params : Json) (r : MatchResult),
      isAllowlisted cfg.allowlist toolName none = false →
      destructiveVerdict cfg toolName params = none →
      cfg.filterToolInputs = true →
      detectSecret ((stringifyJson params).getD "undefined".data) cfg = some r →
      (r.action = .agentConfirm ∨ r.action = .confirm) →
      (hasConfirmFlag params = false →
        beforeToolCall cfg toolName params none =
          .block ("ClawGuardian: ".data ++ r.«match».type ++
            " detected. To proceed (with redaction), re-run with `_clawguardian_confirm: true` in params.".data)) ∧
      (hasConfirmFlag params = true →
        beforeToolCall cfg toolName params none =
          .withParams (objSet (redactParams params cfg) "_clawguardian_confirmed".data
            (.str r.«match».type)) ∧
        hasConfirmFlag (objSet (redactParams params cfg) "_clawguardian_confirmed".data
          (.str r.«match».type)) = true)) := by
  constructor
  · intro cfg toolName params dm hallow hen hdet hcat hact
    constructor
    · intro hconf
      rcases hact with ha | ⟨ha, hnot⟩
      · simp only [beforeToolCall, hallow, Bool.false_eq_true, if_false, destructiveVerdict,
          hen, if_true, hdet, hcat, ha, hconf]
        rfl
      · have hne : (toolName = "exec".data ∨ toolName = "bash".data) = False := eq_false hnot
        simp only [beforeToolCall, hallow, Bool.false_eq_true, if_false, destructiveVerdict,
          hen, if_true, hdet, hcat, ha, hconf, hne, eq_self_iff_true, true_and, and_false,
          if_false]
        rfl
    · intro hconf
      refine ⟨?_, hasConfirmFlag_strip params⟩
      rcases hact with ha | ⟨ha, hnot⟩
      · simp only [beforeToolCall, hallow, Bool.false_eq_true, if_false, destructiveVerdict,
          hen, if_true, hdet, hcat, ha, hconf]
        rfl
      · have hne : (toolName = "exec".data ∨ toolName = "bash".data) = False := eq_false hnot
        simp only [beforeToolCall, hallow, Bool.false_eq_true, if_false, destructiveVerdict,
          hen, if_true, hdet, hcat, ha, hconf, hne, eq_self_iff_true, true_and, and_false,
          if_false]
        rfl
  · intro cfg toolName params r hallow hdv hfil hsec hact
    constructor
    · intro hconf
      rcases hact with ha | ha <;>
        · simp only [beforeToolCall, hallow, Bool.false_eq_true, if_false, hdv,
            secretVerdict, hfil, if_true, hsec, ha, hconf]
          rfl
    · intro hconf
      refine ⟨?_, ?_⟩
      · rcases hact with ha | ha <;>
          · simp only [beforeToolCall, hallow, Bool.false_eq_true, if_false, hdv,
              secretVerdict, hfil, if_true, hsec, ha, hconf]
            rfl
      · rw [show hasConfirmFlag (objSet (redactParams params cfg)
            "_clawguardian_confirmed".data (.str r.«match».type)) =
            hasConfirmFlag params from ?_, hconf]
        have h1 := hasConfirmFlag_redactParams cfg params
        cases hr : redactParams params cfg with
        | obj l =>
            rw [hasConfirmFlag_objSet l _ _ (by decide)]
            rw [hr] at h1
            exact h1
        | null => rw [hr] at h1; exact h1
        | undef => rw [hr] at h1; exact h1
        | bool b => rw [hr] at h1; exact h1
        | num n => rw [hr] at h1; exact h1
        | str s => rw [hr] at h1; exact h1
        | arr xs => rw [hr] at h1; exact h1

/-- Witness for the C2 theorem: the two-round handshake instantiated on
a destructive detection (`rm -rf /tmp/x` under a critical
agent-confirm policy) and on a secret detection (`SEKRET123` under a
high agent-confirm policy), in each case once without and once with
the confirmation flag. -/
theorem beforeToolCall_agent_confirm_witness :
    beforeToolCall cfgAgentDestr "exec".data paramsRmrf none =
      .block ("ClawGuardian: ".data ++ "Recursive force deletion (rm -rf)".data ++
        ". To proceed, re-run with `_clawguardian_confirm: true` in params.".data) ∧
    beforeToolCall cfgAgentDestr "exec".data paramsRmrfC none =
      .withParams (stripConfirmFlag paramsRmrfC) ∧
    hasConfirmFlag (stripConfirmFlag paramsRmrfC) = false ∧
    beforeToolCall cfgAgentSecret "mytool".data paramsSekNF none =
      .block ("ClawGuardian: ".data ++ "custom_sek".data ++
        " detected. To proceed (with redaction), re-run with `_clawguardian_confirm: true` in params.".data) ∧
    beforeToolCall cfgAgentSecret "mytool".data paramsSek none =
      .withParams (objSet (redactParams paramsSek cfgAgentSecret)
        "_clawguardian_confirmed".data (.str "custom_sek".data)) ∧
    hasConfirmFlag (objSet (redactParams paramsSek cfgAgentSecret)
      "_clawguardian_confirmed".data (.str "custom_sek".data)) = true :=
  ⟨(beforeToolCall_agent_confirm.1 cfgAgentDestr "exec".data paramsRmrf
      ⟨.fileDelete, "Recursive force deletion (rm -rf)".data, .critical, "rm -rf".data⟩
      rfl rfl (by decide) rfl (Or.inl rfl)).1 rfl,
   ((beforeToolCall_agent_confirm.1 cfgAgentDestr "exec".data paramsRmrfC
      ⟨.fileDelete, "Recursive force deletion (rm -rf)".data, .critical, "rm -rf".data⟩
      rfl rfl (by decide) rfl (Or.inl rfl)).2 rfl).1,
   ((beforeToolCall_agent_confirm.1 cfgAgentDestr "exec".data paramsRmrfC
      ⟨.fileDelete, "Recursive force deletion (rm -rf)".data, .critical, "rm -rf".data⟩
      rfl rfl (by decide) rfl (Or.inl rfl)).2 rfl).2,
   (beforeToolCall_agent_confirm.2 cfgAgentSecret "mytool".data paramsSekNF
      ⟨⟨"custom_sek".data, 9, 9, .high, .custom⟩, .agentConfirm⟩
      rfl rfl rfl (by decide) (Or.inl rfl)).1 rfl,
   ((beforeToolCall_agent_confirm.2 cfgAgentSecret "mytool".data paramsSek
      ⟨⟨"custom_sek".data, 9, 9, .high, .custom⟩, .agentConfirm⟩
      rfl rfl rfl (by decide) (Or.inl rfl)).2 rfl).1,
   ((beforeToolCall_agent_confirm.2 cfgAgentSecret "mytool".data paramsSek
      ⟨⟨"custom_sek".data, 9, 9, .high, .custom⟩, .agentConfirm⟩
      rfl rfl rfl (by decide) (Or.inl rfl)).2 rfl).2⟩
end ClawGuardian
